import Mathlib

/-!
# EnvKey SDKs: the Go loader and the shell serializer

A shallow embedding of

* `public/sdks/envkey-go/loader/loader.go` (function `Load`), and
* the shell serializer `shell.Source` of `public/sdks/envkey-source`, of which only
  the test file `shell/shell_test/shell_test.go` is available.

Go strings are Lean strings.  The process environment is a store from names to
optional values; `os.Setenv` stores a pair only when it accepts it.  Collaborators
that live outside the repository (`godotenv.Load`, `fetch.Fetch`, `json.Unmarshal`)
are parameters of the embedded functions; for concrete runs `json.Unmarshal` into a
`map[string]string` is given by `jsonUnmarshal`, which follows `encoding/json`.  A Go
`panic` is recorded in the outcome of `Load` together with the environment and the
list of `Fetch` calls made up to that point.
-/

set_option maxRecDepth 4096

namespace EnvKey

/-! ## The process environment -/

/-- The process environment: a name is unset (`none`) or set to a string, which may
be empty. -/
abbrev Env := String → Option String

/-- The call `os.Getenv(key)`: the value of the variable, the empty string when it
is unset. -/
def Getenv (env : Env) (key : String) : String :=
  (env key).getD ""

/-- The argument check of `os.Setenv` (`syscall.Setenv` on Unix): the call fails with
`EINVAL` when the name is empty, when the name holds `=` or a NUL character, and when
the value holds a NUL character. -/
def setenvAccepts (key value : String) : Bool :=
  key ≠ "" && !key.data.any (fun c => c = '=' || c = '\x00') &&
    !value.data.any (fun c => c = '\x00')

/-- The call `os.Setenv(key, value)` on the store, its error result dropped as in
`loader.go` line 35: when the arguments are accepted, `key` holds `value` afterwards;
when they are refused, nothing is stored. -/
def Setenv (env : Env) (key value : String) : Env :=
  if setenvAccepts key value then fun k => if k = key then some value else env k
  else env

/-- The call `os.Clearenv()`, used by the tests. -/
def Clearenv : Env := fun _ => none

/-! ## Collaborators -/

/-- The struct `fetch.FetchOptions`, fields in the positional order used by the
callers in `loader.go`, `cmd/root.go` and `shell_test.go`.  The two `float64`
fields only ever carry literals and are kept as rationals. -/
structure FetchOptions where
  shouldCache : Bool
  cacheDir : String
  clientName : String
  clientVersion : String
  verboseOutput : Bool
  timeoutSeconds : ℚ
  retries : Nat
  retryBackoff : ℚ
  deriving DecidableEq

/-- A Go `error` value as seen by `Load`: either created on the spot by
`errors.New(text)`, or a value handed over by a collaborator. -/
inductive GoError (ε : Type) where
  | errorsNew (text : String)
  | external (e : ε)
  deriving DecidableEq

/-- What a call of `Load` leaves behind: the environment, the `Fetch` calls that
were made (token and options, oldest first), and the panic value if the call
panicked (`none` when it returned). -/
structure LoadOutcome (ε : Type) where
  env : Env
  fetchCalls : List (String × FetchOptions)
  panicValue : Option (GoError ε)

/-- Effect of `godotenv.Load()` for a `.env` file holding the given entries: a name
that is not yet present in the environment is set from the file, a name that is
present (even with an empty value) is left alone.  A missing `.env` file is the
empty list. -/
def dotenvLoad (file : List (String × String)) (env : Env) : Env :=
  fun k =>
    match env k with
    | some v => some v
    | none => file.lookup k

/-- The property of `godotenv.Load()` that the loader relies on: a variable that is
already set keeps its value. -/
def KeepsSetVars (godotenvLoad : Env → Env) : Prop :=
  ∀ (env : Env) (k v : String), env k = some v → godotenvLoad env k = some v

/-! ## `loader.Load` -/

/-- The options literal of `loader.go` line 20:
`fetch.FetchOptions{shouldCache, "", "envkeygo", "", false, 15.0, 3, 1}`. -/
def loadOptions (shouldCache : Bool) : FetchOptions :=
  { shouldCache := shouldCache, cacheDir := "", clientName := "envkeygo",
    clientVersion := "", verboseOutput := false, timeoutSeconds := 15,
    retries := 3, retryBackoff := 1 }

/-- One iteration of the loop of `loader.go` lines 33-37:
`if os.Getenv(k) == "" { os.Setenv(k, v) }`. -/
def mergeStep (env : Env) (kv : String × String) : Env :=
  if Getenv env kv.1 = "" then Setenv env kv.1 kv.2 else env

/-- The loop `for k, v := range resMap` of `loader.go` lines 33-37, run along the
order in which `range` visits the entries. -/
def mergeLoop (resMap : List (String × String)) (env : Env) : Env :=
  resMap.foldl mergeStep env

/-- The function `Load` of `loader.go`.

* `godotenvLoad` is the effect of `godotenv.Load()` on the environment (line 13);
* `Fetch` is `fetch.Fetch`, returning the pair `(res, err)` (line 20);
* `jsonUnmarshal res` is `json.Unmarshal([]byte(res), &resMap)`: the contents of
  `resMap` after the call, in the order `range` visits them, and the error (line 27);
* `env₀` is the process environment when `Load` is called. -/
def Load {ε : Type} (godotenvLoad : Env → Env)
    (Fetch : String → FetchOptions → String × Option ε)
    (jsonUnmarshal : String → List (String × String) × Option ε)
    (shouldCache : Bool) (env₀ : Env) : LoadOutcome ε :=
  let env := godotenvLoad env₀
  let envkey := Getenv env "ENVKEY"
  if envkey = "" then
    { env := env, fetchCalls := [],
      panicValue := some (GoError.errorsNew "missing ENVKEY") }
  else
    let options := loadOptions shouldCache
    match Fetch envkey options with
    | (_, some err) =>
      { env := env, fetchCalls := [(envkey, options)],
        panicValue := some (GoError.external err) }
    | (res, none) =>
      match jsonUnmarshal res with
      | (_, some _) =>
        { env := env, fetchCalls := [(envkey, options)],
          panicValue := some (GoError.errorsNew "problem parsing EnvKey's response") }
      | (resMap, none) =>
        { env := mergeLoop resMap env, fetchCalls := [(envkey, options)],
          panicValue := none }

/-! ## `shell.Source`

The Go file of package `shell` is not among the available sources: only its test
`shell/shell_test/shell_test.go` is.  The definitions of this section follow
sections 4.3, 7 and 8 of the specification, and are checked against the expected
strings of `TestSource`. -/

/-- Modelled from the spec: the fixed text that `shell.Source` (package `shell`, not
available) returns when retrieval fails, section 4.3 step 2; it is also the
expected string of `shell_test.go` line 35. -/
def errorSnippet : String := "echo 'error: ENVKEY invalid'; false"

/-- Modelled from the spec: the character substitution of `ESCAPE` (package `shell`,
not available), section 4.3 step 5: a single quote becomes close-quote,
double-quote, single-quote, double-quote, open-quote; every other character stays. -/
def escapeChar (c : Char) : List Char :=
  if c = '\'' then ['\'', '"', '\'', '"', '\''] else [c]

/-- Modelled from the spec: `ESCAPE` of section 4.3 step 5 (package `shell`, not
available), as the substitution alone, the way the example of section 8 uses it:
the surrounding quotes are written by the formats. -/
def ESCAPE (v : String) : String :=
  String.mk (v.data.flatMap escapeChar)

/-- Modelled from the spec: `RAW_QUOTE` of section 4.3 step 5 (package `shell`, not
available): the value between two single quotes, nothing substituted. -/
def RAW_QUOTE (v : String) : String :=
  "'" ++ v ++ "'"

/-- Lexicographic comparison of two strings by code point, the order of Go's `<`
on valid UTF-8 strings. -/
def keyLE (a b : String) : Prop := a.data ≤ b.data

instance keyLE.decidable : DecidableRel keyLE := fun a b =>
  inferInstanceAs (Decidable (a.data ≤ b.data))

instance keyLE.isTotal : IsTotal String keyLE :=
  ⟨fun a b => (String.le_iff_toList_le.or String.le_iff_toList_le).1 (le_total a b)⟩

instance keyLE.isTrans : IsTrans String keyLE :=
  ⟨fun _ _ _ hab hbc =>
    String.le_iff_toList_le.1
      (le_trans (String.le_iff_toList_le.2 hab) (String.le_iff_toList_le.2 hbc))⟩

instance keyLE.isAntisymm : IsAntisymm String keyLE :=
  ⟨fun _ _ hab hba =>
    le_antisymm (String.le_iff_toList_le.2 hab) (String.le_iff_toList_le.2 hba)⟩

/-- Modelled from the spec: the key sort of section 4.3 step 3 (package `shell`, not
available): ascending lexicographic order. -/
def sortStrings (keys : List String) : List String :=
  keys.insertionSort keyLE

/-- The Go map index expression `resMap[k]` on an enumeration of the map's entries:
the value stored under `k`, the empty string when there is none. -/
def valueOf : List (String × String) → String → String
  | [], _ => ""
  | (k', v) :: rest, k => if k = k' then v else valueOf rest k

/-- Modelled from the spec: one token of the standard format of `shell.Source`
(package `shell`, not available), section 4.3 step 4. -/
def standardToken (k v : String) : String :=
  "'" ++ k ++ "'" ++ "=" ++ "'" ++ ESCAPE v ++ "'"

/-- Modelled from the spec: one line of the PAM-compatible format of `shell.Source`
(package `shell`, not available), section 4.3 step 4. -/
def pamLine (k v : String) : String :=
  "export " ++ k ++ "=" ++ RAW_QUOTE v

/-- Modelled from the spec: one line of the dot-env-compatible format of
`shell.Source` (package `shell`, not available), section 4.3 step 4, with its
terminating newline. -/
def dotEnvLine (k v : String) : String :=
  k ++ "=" ++ "'" ++ ESCAPE v ++ "'" ++ "\n"

/-- Modelled from the spec: steps 3 and 4 of `shell.Source` (package `shell`, not
available), section 4.3: sort the keys, then render in the dot-env format if
`dotEnvCompatible` is set (it takes precedence), else in the PAM format if
`pamCompatible` is set, else in the standard format. -/
def render (resMap : List (String × String)) (pamCompatible dotEnvCompatible : Bool) :
    String :=
  let keys := sortStrings (resMap.map Prod.fst)
  if dotEnvCompatible then
    String.join (keys.map fun k => dotEnvLine k (valueOf resMap k))
  else if pamCompatible then
    "\n".intercalate (keys.map fun k => pamLine k (valueOf resMap k))
  else
    "export " ++ " ".intercalate (keys.map fun k => standardToken k (valueOf resMap k))

/-- Modelled from the spec: the function `shell.Source` (package `shell`, not
available; its callers in `shell_test.go` fix the argument order), section 4.3.
A failing fetch, and by section 7 a failing parse, give the fixed error snippet.
The specification leaves the effect of the second argument open; it has none here. -/
def Source {ε : Type} (Fetch : String → FetchOptions → String × Option ε)
    (jsonUnmarshal : String → List (String × String) × Option ε)
    (envkey : String) (_extraFlag : Bool) (options : FetchOptions)
    (pamCompatible dotEnvCompatible : Bool) : String :=
  match Fetch envkey options with
  | (_, some _) => errorSnippet
  | (res, none) =>
    match jsonUnmarshal res with
    | (_, some _) => errorSnippet
    | (resMap, none) => render resMap pamCompatible dotEnvCompatible

/-! ## A reader for quoted shell words -/

/-- Where a reader of a shell word stands: outside quotes, inside single quotes,
inside double quotes. -/
inductive QuoteMode where
  | unquoted
  | single
  | double
  deriving DecidableEq

/-- Characters that do not stand for themselves outside quotes. -/
def unquotedSpecial : List Char :=
  [' ', '\t', '\n', '|', '&', ';', '<', '>', '(', ')', '$', '\x60', '\\', '*', '?', '[',
   '#', '~']

/-- Characters that do not stand for themselves inside double quotes. -/
def doubleSpecial : List Char := ['$', '\x60', '\\']

/-- Reads a char list as one POSIX shell word and returns the string the shell
would pass on: text inside single quotes is literal up to the closing quote, text
inside double quotes is literal up to the closing quote (a character that would
start an expansion or an escape there is refused), adjacent segments are
concatenated.  `none`: not a single well-formed word of this shape. -/
def shellWord : QuoteMode → List Char → Option (List Char)
  | QuoteMode.unquoted, [] => some []
  | QuoteMode.unquoted, c :: cs =>
    if c = '\'' then shellWord QuoteMode.single cs
    else if c = '"' then shellWord QuoteMode.double cs
    else if c ∈ unquotedSpecial then none
    else (shellWord QuoteMode.unquoted cs).map (c :: ·)
  | QuoteMode.single, [] => none
  | QuoteMode.single, c :: cs =>
    if c = '\'' then shellWord QuoteMode.unquoted cs
    else (shellWord QuoteMode.single cs).map (c :: ·)
  | QuoteMode.double, [] => none
  | QuoteMode.double, c :: cs =>
    if c = '"' then shellWord QuoteMode.unquoted cs
    else if c ∈ doubleSpecial then none
    else (shellWord QuoteMode.double cs).map (c :: ·)

/-! ## `json.Unmarshal` into a `map[string]string`

The decoder of Go's `encoding/json` for the target of `loader.go` line 26: the
scanner of `scanner.go`, which checks the whole text first, and the part of
`decode.go` that fills a map with string keys and string elements. -/

/-- An entry of the scanner's `parseState` stack (`scanner.go`). -/
inductive ParseState where
  | parseObjectKey
  | parseObjectValue
  | parseArrayValue
  deriving DecidableEq

/-- The step functions of the scanner of `encoding/json` (`scanner.go`).  The states
that spell out `true`, `false` and `null` letter by letter are one state holding the
letters still expected. -/
inductive ScanStep where
  | stateBeginValueOrEmpty
  | stateBeginValue
  | stateBeginStringOrEmpty
  | stateBeginString
  | stateEndValue
  | stateEndTop
  | stateInString
  | stateInStringEsc
  | stateInStringEscU (digitsLeft : Nat)
  | stateNeg
  | state1
  | state0
  | stateDot
  | stateDot0
  | stateE
  | stateESign
  | stateE0
  | stateLiteral (expected : List Char)
  deriving DecidableEq

/-- The scanner: its step function, its `parseState` stack (top first) and `endTop`. -/
structure Scanner where
  step : ScanStep
  parseState : List ParseState
  endTop : Bool

/-- The constant `maxNestingDepth` of `scanner.go`. -/
def maxNestingDepth : Nat := 10000

/-- The function `isSpace` of `scanner.go`. -/
def isSpace (c : Char) : Bool :=
  c = ' ' || c = '\t' || c = '\r' || c = '\n'

/-- A decimal digit. -/
def isDigit (c : Char) : Bool := '0'.toNat ≤ c.toNat && c.toNat ≤ '9'.toNat

/-- A hexadecimal digit. -/
def isHex (c : Char) : Bool :=
  isDigit c || ('a'.toNat ≤ c.toNat && c.toNat ≤ 'f'.toNat) ||
    ('A'.toNat ≤ c.toNat && c.toNat ≤ 'F'.toNat)

/-- The function `stateEndTop`: only space may follow the top-level value. -/
def stateEndTop (s : Scanner) (c : Char) : Option Scanner :=
  if isSpace c then some { s with step := ScanStep.stateEndTop, endTop := true } else none

/-- The function `stateEndValue`: what may follow a completed value. -/
def stateEndValue (s : Scanner) (c : Char) : Option Scanner :=
  match s.parseState with
  | [] => stateEndTop s c
  | ps :: below =>
    if isSpace c then some { s with step := ScanStep.stateEndValue }
    else
      match ps with
      | ParseState.parseObjectKey =>
        if c = ':' then
          some { s with step := ScanStep.stateBeginValue,
                        parseState := ParseState.parseObjectValue :: below }
        else none
      | ParseState.parseObjectValue =>
        if c = ',' then
          some { s with step := ScanStep.stateBeginString,
                        parseState := ParseState.parseObjectKey :: below }
        else if c = '}' then
          some { s with parseState := below,
                        step := if below = [] then ScanStep.stateEndTop
                                else ScanStep.stateEndValue,
                        endTop := if below = [] then true else s.endTop }
        else none
      | ParseState.parseArrayValue =>
        if c = ',' then some { s with step := ScanStep.stateBeginValue }
        else if c = ']' then
          some { s with parseState := below,
                        step := if below = [] then ScanStep.stateEndTop
                                else ScanStep.stateEndValue,
                        endTop := if below = [] then true else s.endTop }
        else none

/-- The function `pushParseState`, with its depth check. -/
def pushParseState (s : Scanner) (next : ScanStep) (p : ParseState) : Option Scanner :=
  if (p :: s.parseState).length ≤ maxNestingDepth then
    some { s with step := next, parseState := p :: s.parseState }
  else none

/-- The function `stateBeginValue`. -/
def stateBeginValue (s : Scanner) (c : Char) : Option Scanner :=
  if isSpace c then some s
  else if c = '\x7b' then
    pushParseState s ScanStep.stateBeginStringOrEmpty ParseState.parseObjectKey
  else if c = '[' then
    pushParseState s ScanStep.stateBeginValueOrEmpty ParseState.parseArrayValue
  else if c = '"' then some { s with step := ScanStep.stateInString }
  else if c = '-' then some { s with step := ScanStep.stateNeg }
  else if c = '0' then some { s with step := ScanStep.state0 }
  else if c = 't' then some { s with step := ScanStep.stateLiteral ['r', 'u', 'e'] }
  else if c = 'f' then some { s with step := ScanStep.stateLiteral ['a', 'l', 's', 'e'] }
  else if c = 'n' then some { s with step := ScanStep.stateLiteral ['u', 'l', 'l'] }
  else if isDigit c then some { s with step := ScanStep.state1 }
  else none

/-- The function `stateBeginString`. -/
def stateBeginString (s : Scanner) (c : Char) : Option Scanner :=
  if isSpace c then some s
  else if c = '"' then some { s with step := ScanStep.stateInString }
  else none

/-- The function `state0`, also the tail of `state1`. -/
def state0 (s : Scanner) (c : Char) : Option Scanner :=
  if c = '.' then some { s with step := ScanStep.stateDot }
  else if c = 'e' || c = 'E' then some { s with step := ScanStep.stateE }
  else stateEndValue s c

/-- The function `stateESign`, also the tail of `stateE`. -/
def stateESign (s : Scanner) (c : Char) : Option Scanner :=
  if isDigit c then some { s with step := ScanStep.stateE0 } else none

/-- One call `s.step(s, c)`; `none` is `scanError`. -/
def scanStep (s : Scanner) (c : Char) : Option Scanner :=
  match s.step with
  | ScanStep.stateBeginValueOrEmpty =>
    if isSpace c then some s
    else if c = ']' then stateEndValue s c
    else stateBeginValue { s with step := ScanStep.stateBeginValue } c
  | ScanStep.stateBeginValue => stateBeginValue s c
  | ScanStep.stateBeginStringOrEmpty =>
    if isSpace c then some s
    else if c = '\x7d' then
      stateEndValue
        { s with parseState := ParseState.parseObjectValue :: s.parseState.tail } c
    else stateBeginString { s with step := ScanStep.stateBeginString } c
  | ScanStep.stateBeginString => stateBeginString s c
  | ScanStep.stateEndValue => stateEndValue s c
  | ScanStep.stateEndTop => stateEndTop s c
  | ScanStep.stateInString =>
    if c = '"' then some { s with step := ScanStep.stateEndValue }
    else if c = '\\' then some { s with step := ScanStep.stateInStringEsc }
    else if c.toNat < 0x20 then none
    else some s
  | ScanStep.stateInStringEsc =>
    if c = 'b' || c = 'f' || c = 'n' || c = 'r' || c = 't' || c = '\\' || c = '/' || c = '"'
    then some { s with step := ScanStep.stateInString }
    else if c = 'u' then some { s with step := ScanStep.stateInStringEscU 4 }
    else none
  | ScanStep.stateInStringEscU n =>
    if isHex c then
      some { s with step := if n ≤ 1 then ScanStep.stateInString
                            else ScanStep.stateInStringEscU (n - 1) }
    else none
  | ScanStep.stateNeg =>
    if c = '0' then some { s with step := ScanStep.state0 }
    else if isDigit c then some { s with step := ScanStep.state1 }
    else none
  | ScanStep.state1 => if isDigit c then some s else state0 s c
  | ScanStep.state0 => state0 s c
  | ScanStep.stateDot => if isDigit c then some { s with step := ScanStep.stateDot0 } else none
  | ScanStep.stateDot0 =>
    if isDigit c then some s
    else if c = 'e' || c = 'E' then some { s with step := ScanStep.stateE }
    else stateEndValue s c
  | ScanStep.stateE =>
    if c = '+' || c = '-' then some { s with step := ScanStep.stateESign }
    else stateESign s c
  | ScanStep.stateESign => stateESign s c
  | ScanStep.stateE0 => if isDigit c then some s else stateEndValue s c
  | ScanStep.stateLiteral expected =>
    match expected with
    | [] => none
    | [e] => if c = e then some { s with step := ScanStep.stateEndValue } else none
    | e :: more => if c = e then some { s with step := ScanStep.stateLiteral more } else none

/-- The loop of `checkValid` over the input. -/
def scanAll : Scanner → List Char → Option Scanner
  | s, [] => some s
  | s, c :: cs =>
    match scanStep s c with
    | none => none
    | some s' => scanAll s' cs

/-- The function `checkValid`: the loop, then `eof`, which feeds one space unless
the top-level value is already complete. -/
def checkValid (data : List Char) : Bool :=
  match scanAll { step := ScanStep.stateBeginValue, parseState := [], endTop := false } data with
  | none => false
  | some s =>
    if s.endTop then true
    else
      match scanStep s ' ' with
      | none => false
      | some s' => s'.endTop

/-- A piece of a string literal: a character, or the 16-bit code of a `\u` escape. -/
inductive StringUnit where
  | char (c : Char)
  | escU (code : Nat)

/-- The value of a hexadecimal digit. -/
def hexVal (c : Char) : Nat :=
  if isDigit c then c.toNat - '0'.toNat
  else if 'a'.toNat ≤ c.toNat && c.toNat ≤ 'f'.toNat then c.toNat - 'a'.toNat + 10
  else c.toNat - 'A'.toNat + 10

/-- The character a one-letter escape stands for (`unquoteBytes` in `decode.go`). -/
def unescape (e : Char) : Char :=
  if e = 'b' then Char.ofNat 8
  else if e = 'f' then Char.ofNat 12
  else if e = 'n' then '\n'
  else if e = 'r' then '\r'
  else if e = 't' then '\t'
  else e

/-- Reads the body of a string literal, after its opening quote, up to and including
the closing quote; returns the pieces and the rest of the input. -/
def readString : List Char → List StringUnit × List Char
  | [] => ([], [])
  | c :: rest =>
    if c = '"' then ([], rest)
    else if c = '\\' then
      match rest with
      | [] => ([], [])
      | e :: rest₁ =>
        if e = 'u' then
          match rest₁ with
          | h₁ :: h₂ :: h₃ :: h₄ :: rest₂ =>
            let code := ((hexVal h₁ * 16 + hexVal h₂) * 16 + hexVal h₃) * 16 + hexVal h₄
            ((StringUnit.escU code) :: (readString rest₂).1, (readString rest₂).2)
          | _ => ([], [])
        else ((StringUnit.char (unescape e)) :: (readString rest₁).1, (readString rest₁).2)
    else ((StringUnit.char c) :: (readString rest).1, (readString rest).2)

/-- The rune U+FFFD, `unicode.ReplacementChar`. -/
def replacementChar : Char := Char.ofNat 0xFFFD

/-- The rune of the surrogate pair that the code `rr` of a `\u` escape forms with a
`\u` escape right after it (`utf16.DecodeRune`), if there is one. -/
def surrogatePair (rr : Nat) : List StringUnit → Option Nat
  | StringUnit.escU rr₁ :: _ =>
    if 0xD800 ≤ rr ∧ rr < 0xDC00 ∧ 0xDC00 ≤ rr₁ ∧ rr₁ < 0xE000 then
      some ((rr - 0xD800) * 0x400 + (rr₁ - 0xDC00) + 0x10000)
    else none
  | _ => none

/-- The pieces of a string literal as text (`unquoteBytes`): a `\u` escape that is
a surrogate joins the `\u` escape right after it when the two form a valid pair
(the second piece is then skipped), and is the replacement character otherwise. -/
def decodeUnits : Bool → List StringUnit → List Char
  | _, [] => []
  | true, _ :: rest => decodeUnits false rest
  | false, StringUnit.char c :: rest => c :: decodeUnits false rest
  | false, StringUnit.escU rr :: rest =>
    if 0xD800 ≤ rr ∧ rr < 0xE000 then
      match surrogatePair rr rest with
      | some rune => Char.ofNat rune :: decodeUnits true rest
      | none => replacementChar :: decodeUnits false rest
    else Char.ofNat rr :: decodeUnits false rest

/-- Drops leading white space. -/
def skipSpaces : List Char → List Char
  | [] => []
  | c :: rest => if isSpace c then skipSpaces rest else c :: rest

/-- Drops the rest of a number literal. -/
def skipNumber : List Char → List Char
  | [] => []
  | c :: rest =>
    if isDigit c || c = '-' || c = '+' || c = '.' || c = 'e' || c = 'E' then skipNumber rest
    else c :: rest

/-- Drops the rest of an array or object of which `depth` brackets are open
(`d.skip()`), minding brackets inside string literals. -/
def skipNested : Nat → Bool → Bool → List Char → List Char
  | _, _, _, [] => []
  | depth, true, true, _ :: rest => skipNested depth true false rest
  | depth, true, false, c :: rest =>
    if c = '\\' then skipNested depth true true rest
    else if c = '"' then skipNested depth false false rest
    else skipNested depth true false rest
  | depth, false, _, c :: rest =>
    if c = '"' then skipNested depth true false rest
    else if c = '\x7b' || c = '[' then skipNested (depth + 1) false false rest
    else if c = '\x7d' || c = ']' then
      if depth ≤ 1 then rest else skipNested (depth - 1) false false rest
    else skipNested depth false false rest

/-- An `error` of `json.Unmarshal`: a `*SyntaxError`, or an `*UnmarshalTypeError`
with its fields `Value` and `Type`. -/
inductive JsonError where
  | syntaxError
  | unmarshalTypeError (value goType : String)
  deriving DecidableEq

/-- The method `Error()` of an `*UnmarshalTypeError`; for a `*SyntaxError` its
message, which depends on the offending byte, is not reproduced. -/
def JsonError.Error : JsonError → String
  | JsonError.syntaxError => "json: syntax error"
  | JsonError.unmarshalTypeError value goType =>
    "json: cannot unmarshal " ++ value ++ " into Go value of type " ++ goType

/-- Decodes one value of an object into a map element of type `string`
(`d.value` on the element): a string literal is stored; `null` leaves the zero
value; anything else leaves the zero value and is a type error.  Returns the
element, the `Value` of the error if any, and the rest of the input. -/
def readElement : List Char → String × Option String × List Char
  | [] => ("", none, [])
  | c :: rest =>
    if c = '"' then (String.mk (decodeUnits false (readString rest).1), none, (readString rest).2)
    else if c = 'n' then ("", none, rest.drop 3)
    else if c = 't' then ("", some "bool", rest.drop 3)
    else if c = 'f' then ("", some "bool", rest.drop 4)
    else if c = '[' then ("", some "array", skipNested 1 false false rest)
    else if c = '\x7b' then ("", some "object", skipNested 1 false false rest)
    else ("", some "number", skipNumber rest)

/-- The call `v.SetMapIndex(key, value)` on an enumeration of the map. -/
def setMapIndex : List (String × String) → String → String → List (String × String)
  | [], k, v => [(k, v)]
  | (k', v') :: rest, k, v =>
    if k' = k then (k, v) :: rest else (k', v') :: setMapIndex rest k v

/-- The loop of `d.object` over the members of the top-level object, for a map with
string keys and string elements, after the opening brace.  Every member is written
to the map; the first type error is kept (`d.saveError`). -/
def decodeMembers : Nat → List Char → List (String × String) → Option JsonError →
    List (String × String) × Option JsonError
  | 0, _, m, e => (m, e)
  | fuel + 1, cs, m, e =>
    match skipSpaces cs with
    | [] => (m, e)
    | q :: afterQuote =>
      if q = '"' then
        let key := String.mk (decodeUnits false (readString afterQuote).1)
        match skipSpaces (readString afterQuote).2 with
        | [] => (m, e)
        | _ :: afterColon =>
          let elem := readElement (skipSpaces afterColon)
          let m' := setMapIndex m key elem.1
          let e' := match e with
            | some err => some err
            | none => elem.2.1.map fun value => JsonError.unmarshalTypeError value "string"
          match skipSpaces elem.2.2 with
          | [] => (m', e')
          | sep :: next => if sep = ',' then decodeMembers fuel next m' e' else (m', e')
      else (m, e)

/-- The call `json.Unmarshal([]byte(text), &resMap)` for `var resMap map[string]string`
(`encoding/json`): the contents of `resMap` after the call and the error.  The text
is first checked as a whole (`checkValid`); then `null` leaves the map nil, an object
is decoded member by member, and any other value is a type error. -/
def jsonUnmarshal (text : String) : List (String × String) × Option JsonError :=
  if checkValid text.data then
    match skipSpaces text.data with
    | [] => ([], none)
    | c :: rest =>
      if c = '\x7b' then decodeMembers rest.length rest [] none
      else if c = 'n' then ([], none)
      else if c = '[' then ([], some (JsonError.unmarshalTypeError "array" "map[string]string"))
      else if c = '"' then ([], some (JsonError.unmarshalTypeError "string" "map[string]string"))
      else if c = 't' || c = 'f' then
        ([], some (JsonError.unmarshalTypeError "bool" "map[string]string"))
      else ([], some (JsonError.unmarshalTypeError "number" "map[string]string"))
  else ([], some JsonError.syntaxError)

/-! ## Test doubles

The constants and the observable behaviour of the staging configuration used by
`loader_test.go` and `shell_test.go`. -/

/-- The constant `VALID_ENVKEY` of the tests. -/
def VALID_ENVKEY : String :=
  "2L9Xy76BkmawqLUkw7Pah6jQHU-4KcNqgRHVTx2UxRpL8Uf7hxP12-api-v2-staging.envkey.com"

/-- The constant `INVALID_ENVKEY` of the tests. -/
def INVALID_ENVKEY : String :=
  "Emzt4BE7C23QtsC7gb1z-3NvfNiG1Boy6XH2oinvalid-api-v2-staging.envkey.com"

/-- The six variables behind `VALID_ENVKEY`, read off the expected strings of
`TestSource`, listed in an order that is not the sorted one. -/
def testMapping : List (String × String) :=
  [("TEST_SPACES", "it does work!"),
   ("TEST", "it"),
   ("TEST_STRANGE_CHARS", "with quotes \x60 ' \\\" bäh"),
   ("TEST_2", "works!"),
   ("TEST_SINGLE_QUOTES", "this' is ok"),
   ("TEST_INJECTION", "'$(uname)")]

/-- The JSON document of `testMapping`, members in the order of `testMapping`. -/
def testResponse : String :=
  "\x7b\"TEST_SPACES\":\"it does work!\",\"TEST\":\"it\"," ++
  "\"TEST_STRANGE_CHARS\":\"with quotes \x60 ' \\\\\\\" bäh\",\"TEST_2\":\"works!\"," ++
  "\"TEST_SINGLE_QUOTES\":\"this' is ok\",\"TEST_INJECTION\":\"'$(uname)\"\x7d"

/-- A response text with one string value and one numeric value. -/
def mixedResponse : String := "\x7b\"TEST\":\"it\",\"TEST_2\":1\x7d"

/-- A response text whose one value holds a NUL character, written as an escape. -/
def nulResponse : String := "\x7b\"K\":\"a\\u0000b\"\x7d"

/-- A response text that is an object with a `null` member and a string member. -/
def nullMemberResponse : String := "\x7b\"A\":null,\"B\":\"b\"\x7d"

/-- A `Fetch` double: the valid token yields `testResponse`, the token `"mixed"`
yields `mixedResponse`, every other token fails with `ENVKEY invalid`. -/
def testFetch (envkey : String) (_options : FetchOptions) : String × Option String :=
  if envkey = VALID_ENVKEY then (testResponse, none)
  else if envkey = "mixed" then (mixedResponse, none)
  else ("", some "ENVKEY invalid")

/-- A `Fetch` double that succeeds with the given text for every token. -/
def fetchText (text : String) (_envkey : String) (_options : FetchOptions) :
    String × Option String :=
  (text, none)

/-- The decoder `jsonUnmarshal` with its error as the text of `Error()`, the error
type of the `Fetch` doubles. -/
def testUnmarshal (text : String) : List (String × String) × Option String :=
  ((jsonUnmarshal text).1, (jsonUnmarshal text).2.map JsonError.Error)

/-- The options literal of `shell_test.go`:
`fetch.FetchOptions{false, "", "envkey-source", version.Version, false, 2.0, 1, 0.1}`,
for a given `version.Version`. -/
def testOptions (version : String) : FetchOptions :=
  { shouldCache := false, cacheDir := "", clientName := "envkey-source",
    clientVersion := version, verboseOutput := false, timeoutSeconds := 2,
    retries := 1, retryBackoff := 1 / 10 }

/-- The keys of `testMapping` in ascending order. -/
def testSortedKeys : List String :=
  ["TEST", "TEST_2", "TEST_INJECTION", "TEST_SINGLE_QUOTES", "TEST_SPACES",
   "TEST_STRANGE_CHARS"]

/-- An environment given by a list of settings, everything else unset. -/
def envOf (settings : List (String × String)) : Env :=
  fun k => settings.lookup k

/-! ## The merge loop -/

theorem mergeStep_other (env : Env) (kv : String × String) (k : String) (h : k ≠ kv.1) :
    mergeStep env kv k = env k := by
  unfold mergeStep Setenv
  split
  · split
    · simp [h]
    · rfl
  · rfl

theorem mergeStep_nonempty (env : Env) (kv : String × String) (k : String)
    (h : Getenv env k ≠ "") : mergeStep env kv k = env k := by
  by_cases hk : k = kv.1
  · subst hk
    simp [mergeStep, h]
  · exact mergeStep_other env kv k hk

theorem mergeStep_empty (env : Env) (k v : String) (h : Getenv env k = "")
    (hacc : setenvAccepts k v = true) : mergeStep env (k, v) k = some v := by
  simp [mergeStep, h, Setenv, hacc]

/-- A pair that `os.Setenv` refuses leaves the environment as it is. -/
theorem mergeStep_refused (env : Env) (k v : String) (hacc : setenvAccepts k v = false) :
    mergeStep env (k, v) = env := by
  simp [mergeStep, Setenv, hacc]

theorem mergeLoop_cons (kv : String × String) (m : List (String × String)) (env : Env) :
    mergeLoop (kv :: m) env = mergeLoop m (mergeStep env kv) := rfl

/-- A variable with a non-empty value is never written by the loop. -/
theorem mergeLoop_nonempty (m : List (String × String)) (env : Env) (k : String)
    (h : Getenv env k ≠ "") : mergeLoop m env k = env k := by
  induction m generalizing env with
  | nil => rfl
  | cons kv m ih =>
    have hstep : mergeStep env kv k = env k := mergeStep_nonempty env kv k h
    have h2 : Getenv (mergeStep env kv) k ≠ "" := by
      simpa [Getenv, hstep] using h
    rw [mergeLoop_cons, ih _ h2, hstep]

/-- A name that is not a key of the map is never written by the loop. -/
theorem mergeLoop_not_key (m : List (String × String)) (env : Env) (k : String)
    (h : k ∉ m.map Prod.fst) : mergeLoop m env k = env k := by
  induction m generalizing env with
  | nil => rfl
  | cons kv m ih =>
    simp only [List.map_cons, List.mem_cons, not_or] at h
    rw [mergeLoop_cons, ih _ h.2, mergeStep_other env kv k h.1]

/-- A key whose variable is unset or empty gets the value the map holds for it, when
`os.Setenv` accepts the pair. -/
theorem mergeLoop_empty (m : List (String × String)) (hm : (m.map Prod.fst).Nodup)
    (env : Env) (k v : String) (hkv : (k, v) ∈ m) (h : Getenv env k = "")
    (hacc : setenvAccepts k v = true) : mergeLoop m env k = some v := by
  induction m generalizing env with
  | nil => simp at hkv
  | cons kv m ih =>
    simp only [List.map_cons, List.nodup_cons] at hm
    rw [mergeLoop_cons]
    rcases List.mem_cons.1 hkv with heq | hmem
    · subst heq
      rw [mergeLoop_not_key m _ k hm.1]
      exact mergeStep_empty env k v h hacc
    · have hne : k ≠ kv.1 := by
        intro hk
        apply hm.1
        rw [← hk]
        exact List.mem_map_of_mem Prod.fst hmem
      have hstep : mergeStep env kv k = env k := mergeStep_other env kv k hne
      have h2 : Getenv (mergeStep env kv) k = "" := by
        simpa [Getenv, hstep] using h
      exact ih hm.2 _ hmem h2

/-- A key whose pair `os.Setenv` refuses keeps what it had. -/
theorem mergeLoop_refused (m : List (String × String)) (hm : (m.map Prod.fst).Nodup)
    (env : Env) (k v : String) (hkv : (k, v) ∈ m) (hacc : setenvAccepts k v = false) :
    mergeLoop m env k = env k := by
  induction m generalizing env with
  | nil => simp at hkv
  | cons kv m ih =>
    simp only [List.map_cons, List.nodup_cons] at hm
    rw [mergeLoop_cons]
    rcases List.mem_cons.1 hkv with heq | hmem
    · subst heq
      rw [mergeLoop_not_key m _ k hm.1, mergeStep_refused env k v hacc]
    · have hne : k ≠ kv.1 := by
        intro hk
        apply hm.1
        rw [← hk]
        exact List.mem_map_of_mem Prod.fst hmem
      rw [ih hm.2 _ hmem, mergeStep_other env kv k hne]

theorem exists_value_of_key (m : List (String × String)) (k : String)
    (h : k ∈ m.map Prod.fst) : ∃ v, (k, v) ∈ m := by
  obtain ⟨⟨k', v⟩, hmem, hk⟩ := List.mem_map.1 h
  simp only at hk
  subst hk
  exact ⟨v, hmem⟩

/-- Two enumerations of one map leave the same environment. -/
theorem mergeLoop_perm (m₁ m₂ : List (String × String)) (hperm : m₁.Perm m₂)
    (hm : (m₂.map Prod.fst).Nodup) (env : Env) : mergeLoop m₁ env = mergeLoop m₂ env := by
  have hm₁ : (m₁.map Prod.fst).Nodup := ((hperm.map Prod.fst).nodup_iff).2 hm
  funext k
  by_cases hne : Getenv env k = ""
  · by_cases hk : k ∈ m₂.map Prod.fst
    · obtain ⟨v, hv⟩ := exists_value_of_key m₂ k hk
      cases hacc : setenvAccepts k v with
      | true =>
        rw [mergeLoop_empty m₂ hm env k v hv hne hacc,
          mergeLoop_empty m₁ hm₁ env k v (hperm.mem_iff.2 hv) hne hacc]
      | false =>
        rw [mergeLoop_refused m₂ hm env k v hv hacc,
          mergeLoop_refused m₁ hm₁ env k v (hperm.mem_iff.2 hv) hacc]
    · have hk₁ : k ∉ m₁.map Prod.fst := fun h => hk ((hperm.map Prod.fst).mem_iff.1 h)
      rw [mergeLoop_not_key m₂ env k hk, mergeLoop_not_key m₁ env k hk₁]
  · rw [mergeLoop_nonempty m₁ env k hne, mergeLoop_nonempty m₂ env k hne]

/-- Running the loop again over the same map changes nothing. -/
theorem mergeLoop_idem (m : List (String × String)) (hm : (m.map Prod.fst).Nodup)
    (env : Env) : mergeLoop m (mergeLoop m env) = mergeLoop m env := by
  funext k
  by_cases hne : Getenv (mergeLoop m env) k = ""
  · by_cases hk : k ∈ m.map Prod.fst
    · obtain ⟨v, hv⟩ := exists_value_of_key m k hk
      have h0 : Getenv env k = "" := by
        by_contra h0
        apply h0
        have := mergeLoop_nonempty m env k h0
        simpa [Getenv, this] using hne
      cases hacc : setenvAccepts k v with
      | true =>
        rw [mergeLoop_empty m hm _ k v hv hne hacc, mergeLoop_empty m hm env k v hv h0 hacc]
      | false => exact mergeLoop_refused m hm _ k v hv hacc
    · exact mergeLoop_not_key m _ k hk
  · exact mergeLoop_nonempty m _ k hne

/-! ## `godotenv.Load` and the token check -/

theorem dotenvLoad_keepsSetVars (file : List (String × String)) :
    KeepsSetVars (dotenvLoad file) := by
  intro env k v h
  simp [dotenvLoad, h]

theorem KeepsSetVars.of_nonempty {d : Env → Env} (hd : KeepsSetVars d) (env : Env)
    (k : String) (h : Getenv env k ≠ "") : d env k = env k := by
  cases hk : env k with
  | none => simp [Getenv, hk] at h
  | some v => exact hd env k v hk

theorem KeepsSetVars.getenv_of_nonempty {d : Env → Env} (hd : KeepsSetVars d) (env : Env)
    (k : String) (h : Getenv env k ≠ "") : Getenv (d env) k = Getenv env k := by
  unfold Getenv
  rw [hd.of_nonempty env k h]

/-- The three failure exits and the normal exit of `Load`, one equation each. -/
theorem Load_of_missing {ε : Type} (d : Env → Env)
    (Fetch : String → FetchOptions → String × Option ε)
    (jsonUnmarshal : String → List (String × String) × Option ε)
    (shouldCache : Bool) (env₀ : Env) (h : Getenv (d env₀) "ENVKEY" = "") :
    Load d Fetch jsonUnmarshal shouldCache env₀ =
      { env := d env₀, fetchCalls := [],
        panicValue := some (GoError.errorsNew "missing ENVKEY") } := by
  simp [Load, h]

theorem Load_of_fetch_error {ε : Type} (d : Env → Env)
    (Fetch : String → FetchOptions → String × Option ε)
    (jsonUnmarshal : String → List (String × String) × Option ε)
    (shouldCache : Bool) (env₀ : Env) (res : String) (e : ε)
    (h : Getenv (d env₀) "ENVKEY" ≠ "")
    (hF : Fetch (Getenv (d env₀) "ENVKEY") (loadOptions shouldCache) = (res, some e)) :
    Load d Fetch jsonUnmarshal shouldCache env₀ =
      { env := d env₀, fetchCalls := [(Getenv (d env₀) "ENVKEY", loadOptions shouldCache)],
        panicValue := some (GoError.external e) } := by
  simp [Load, h, hF]

theorem Load_of_parse_error {ε : Type} (d : Env → Env)
    (Fetch : String → FetchOptions → String × Option ε)
    (jsonUnmarshal : String → List (String × String) × Option ε)
    (shouldCache : Bool) (env₀ : Env) (res : String) (decoded : List (String × String))
    (e : ε) (h : Getenv (d env₀) "ENVKEY" ≠ "")
    (hF : Fetch (Getenv (d env₀) "ENVKEY") (loadOptions shouldCache) = (res, none))
    (hJ : jsonUnmarshal res = (decoded, some e)) :
    Load d Fetch jsonUnmarshal shouldCache env₀ =
      { env := d env₀, fetchCalls := [(Getenv (d env₀) "ENVKEY", loadOptions shouldCache)],
        panicValue := some (GoError.errorsNew "problem parsing EnvKey's response") } := by
  simp [Load, h, hF, hJ]

theorem Load_of_success {ε : Type} (d : Env → Env)
    (Fetch : String → FetchOptions → String × Option ε)
    (jsonUnmarshal : String → List (String × String) × Option ε)
    (shouldCache : Bool) (env₀ : Env) (res : String) (resMap : List (String × String))
    (h : Getenv (d env₀) "ENVKEY" ≠ "")
    (hF : Fetch (Getenv (d env₀) "ENVKEY") (loadOptions shouldCache) = (res, none))
    (hJ : jsonUnmarshal res = (resMap, none)) :
    Load d Fetch jsonUnmarshal shouldCache env₀ =
      { env := mergeLoop resMap (d env₀),
        fetchCalls := [(Getenv (d env₀) "ENVKEY", loadOptions shouldCache)],
        panicValue := none } := by
  simp [Load, h, hF, hJ]

theorem dotenvLoad_nil (env : Env) : dotenvLoad [] env = env := by
  funext k
  unfold dotenvLoad
  cases h : env k <;> simp

/-- Without a `.env` file the merge is relative to the environment `Load` was called
in: a key of the mapping keeps a non-empty value and gets the mapping's value when
it was unset or empty and `os.Setenv` accepts the pair. -/
theorem Load_without_dotenv_file {ε : Type}
    (Fetch : String → FetchOptions → String × Option ε)
    (jsonUnmarshal : String → List (String × String) × Option ε)
    (shouldCache : Bool) (E : Env) (res : String) (M : List (String × String))
    (hkey : Getenv E "ENVKEY" ≠ "")
    (hF : Fetch (Getenv E "ENVKEY") (loadOptions shouldCache) = (res, none))
    (hJ : jsonUnmarshal res = (M, none)) (hM : (M.map Prod.fst).Nodup) :
    (Load (dotenvLoad []) Fetch jsonUnmarshal shouldCache E).panicValue = none ∧
      ∀ k v, (k, v) ∈ M →
        (Getenv E k ≠ "" →
          (Load (dotenvLoad []) Fetch jsonUnmarshal shouldCache E).env k = E k) ∧
        (Getenv E k = "" → setenvAccepts k v = true →
          (Load (dotenvLoad []) Fetch jsonUnmarshal shouldCache E).env k = some v) := by
  rw [Load_of_success (dotenvLoad []) Fetch jsonUnmarshal shouldCache E res M
    (by rw [dotenvLoad_nil]; exact hkey) (by rw [dotenvLoad_nil]; exact hF) hJ,
    dotenvLoad_nil]
  exact ⟨rfl, fun k v hkv =>
    ⟨fun h => mergeLoop_nonempty M E k h, fun h hacc => mergeLoop_empty M hM E k v hkv h hacc⟩⟩

/-! ## The decoder on sample texts -/

/-- What `json.Unmarshal` leaves in a `map[string]string` and reports on `null` and
on objects with string, `null`, numeric and nested members and repeated keys. -/
theorem jsonUnmarshal_samples :
    jsonUnmarshal "null" = ([], none) ∧
      jsonUnmarshal "\x7b\x7d" = ([], none) ∧
      jsonUnmarshal " \x7b\"A\":null,\"B\":\"b\"\x7d " = ([("A", ""), ("B", "b")], none) ∧
      jsonUnmarshal "\x7b\"TEST\":\"it\",\"TEST_2\":1\x7d" =
        ([("TEST", "it"), ("TEST_2", "")],
          some (JsonError.unmarshalTypeError "number" "string")) ∧
      jsonUnmarshal "\x7b\"a\":\x7b\"x\":[1,\"\x7d\"]\x7d , \"b\" : \"c\"\x7d" =
        ([("a", ""), ("b", "c")], some (JsonError.unmarshalTypeError "object" "string")) ∧
      jsonUnmarshal "\x7b\"a\":\"x\",\"a\":\"y\"\x7d" = ([("a", "y")], none) := by
  decide

/-- Escapes and surrogate pairs in string literals, and top-level values that are
neither an object nor `null`. -/
theorem jsonUnmarshal_samples_values :
    jsonUnmarshal "\x7b\"K\":\"a\\u0000b\"\x7d" = ([("K", "a\x00b")], none) ∧
      jsonUnmarshal "\x7b\"a\":\"\\ud83d\\ude00 \\ud83d \\n\\\"\"\x7d" =
        ([("a", "😀 � \n\"")], none) ∧
      jsonUnmarshal "[1]" =
        ([], some (JsonError.unmarshalTypeError "array" "map[string]string")) ∧
      jsonUnmarshal "-1.5e+10" =
        ([], some (JsonError.unmarshalTypeError "number" "map[string]string")) := by
  decide

/-- Malformed texts are syntax errors and leave the map nil. -/
theorem jsonUnmarshal_samples_malformed :
    jsonUnmarshal "" = ([], some JsonError.syntaxError) ∧
      jsonUnmarshal "01" = ([], some JsonError.syntaxError) ∧
      jsonUnmarshal "\x7b\"a\":\"b\",\x7d" = ([], some JsonError.syntaxError) ∧
      jsonUnmarshal "\x7b\"a\":\"b\"\x7d x" = ([], some JsonError.syntaxError) ∧
      jsonUnmarshal "\x7b\"a\":\"raw\nnewline\"\x7d" = ([], some JsonError.syntaxError) := by
  decide

theorem testUnmarshal_testResponse : testUnmarshal testResponse = (testMapping, none) := by
  decide

/-! ## The tests of `loader_test.go` on the test doubles, without a `.env` file -/

theorem TestLoadMissing :
    (Load (dotenvLoad []) testFetch testUnmarshal false Clearenv).panicValue ≠ none := by
  decide

theorem TestLoadValid :
    (Load (dotenvLoad []) testFetch testUnmarshal false
        (Setenv Clearenv "ENVKEY" VALID_ENVKEY)).panicValue = none ∧
      Getenv (Load (dotenvLoad []) testFetch testUnmarshal false
        (Setenv Clearenv "ENVKEY" VALID_ENVKEY)).env "TEST" = "it" ∧
      Getenv (Load (dotenvLoad []) testFetch testUnmarshal false
        (Setenv Clearenv "ENVKEY" VALID_ENVKEY)).env "TEST_2" = "works!" := by
  decide

theorem TestLoadInvalid :
    (Load (dotenvLoad []) testFetch testUnmarshal false
        (Setenv Clearenv "ENVKEY" INVALID_ENVKEY)).panicValue ≠ none := by
  decide

theorem TestLoadOverrides :
    (Load (dotenvLoad []) testFetch testUnmarshal false
        (Setenv (Setenv Clearenv "ENVKEY" VALID_ENVKEY) "TEST_2" "override")).panicValue
        = none ∧
      Getenv (Load (dotenvLoad []) testFetch testUnmarshal false
        (Setenv (Setenv Clearenv "ENVKEY" VALID_ENVKEY) "TEST_2" "override")).env "TEST"
        = "it" ∧
      Getenv (Load (dotenvLoad []) testFetch testUnmarshal false
        (Setenv (Setenv Clearenv "ENVKEY" VALID_ENVKEY) "TEST_2" "override")).env "TEST_2"
        = "override" := by
  decide

/-! ## Claims about `loader.Load` -/

/-- C1, as stated, fails when `.env` defines a key of the mapping: the process
environment holds only `ENVKEY`, the file `.env` holds `TEST_2=local`, the fetched
mapping holds `TEST_2` with value `works!`.  `Load` returns, `TEST_2` was unset when
`Load` was called, and afterwards `TEST_2` is `local`, not `works!`.  It also fails
without a `.env` file for a value that `os.Setenv` refuses: the mapping holds `K`
with a value containing NUL, `K` was unset, and `K` is still unset afterwards. -/
theorem Load_dotenv_value_beats_mapping :
    (Load (dotenvLoad [("TEST_2", "local")]) testFetch testUnmarshal false
        (envOf [("ENVKEY", VALID_ENVKEY)])).panicValue = none ∧
      testFetch VALID_ENVKEY (loadOptions false) = (testResponse, none) ∧
      testUnmarshal testResponse = (testMapping, none) ∧
      ("TEST_2", "works!") ∈ testMapping ∧
      envOf [("ENVKEY", VALID_ENVKEY)] "TEST_2" = none ∧
      (Load (dotenvLoad [("TEST_2", "local")]) testFetch testUnmarshal false
        (envOf [("ENVKEY", VALID_ENVKEY)])).env "TEST_2" = some "local" ∧
      (Load (dotenvLoad [("TEST_2", "local")]) testFetch testUnmarshal false
        (envOf [("ENVKEY", VALID_ENVKEY)])).env "TEST_2" ≠ some "works!" ∧
      (Load (dotenvLoad []) (fetchText nulResponse) testUnmarshal false
        (envOf [("ENVKEY", VALID_ENVKEY)])).panicValue = none ∧
      testUnmarshal nulResponse = ([("K", "a\x00b")], none) ∧
      envOf [("ENVKEY", VALID_ENVKEY)] "K" = none ∧
      (Load (dotenvLoad []) (fetchText nulResponse) testUnmarshal false
        (envOf [("ENVKEY", VALID_ENVKEY)])).env "K" = none ∧
      (Load (dotenvLoad []) (fetchText nulResponse) testUnmarshal false
        (envOf [("ENVKEY", VALID_ENVKEY)])).env "K" ≠ some "a\x00b" := by
  decide

/-- C1, amended: let `godotenv.Load()` keep every variable that is already set, let
the token be non-empty once `.env` is loaded, and let `Fetch` and the JSON parsing
succeed with the mapping `M`.  Then `Load` returns, and for every key `k` of `M`:
if `k` had a non-empty value when `Load` was called it still has exactly that value;
if `k` was unset or empty then and still is after `godotenv.Load()`, and `os.Setenv`
accepts the name `k` with the value `M[k]`, it now has the value `M[k]`; if `k` was
unset or empty then and `godotenv.Load()` gave it a non-empty value, it has that
value. -/
theorem Load_merge_keeps_nonempty_sets_empty {ε : Type} (d : Env → Env)
    (hd : KeepsSetVars d) (Fetch : String → FetchOptions → String × Option ε)
    (jsonUnmarshal : String → List (String × String) × Option ε)
    (shouldCache : Bool) (E : Env) (res : String) (M : List (String × String))
    (hkey : Getenv (d E) "ENVKEY" ≠ "")
    (hF : Fetch (Getenv (d E) "ENVKEY") (loadOptions shouldCache) = (res, none))
    (hJ : jsonUnmarshal res = (M, none)) (hM : (M.map Prod.fst).Nodup) :
    (Load d Fetch jsonUnmarshal shouldCache E).panicValue = none ∧
      ∀ k v, (k, v) ∈ M →
        (Getenv E k ≠ "" → (Load d Fetch jsonUnmarshal shouldCache E).env k = E k) ∧
        (Getenv E k = "" → Getenv (d E) k = "" → setenvAccepts k v = true →
          (Load d Fetch jsonUnmarshal shouldCache E).env k = some v) ∧
        (Getenv E k = "" → Getenv (d E) k ≠ "" →
          (Load d Fetch jsonUnmarshal shouldCache E).env k = d E k) := by
  rw [Load_of_success d Fetch jsonUnmarshal shouldCache E res M hkey hF hJ]
  refine ⟨rfl, fun k v hkv => ⟨fun h => ?_, fun _ h hacc => ?_, fun _ h => ?_⟩⟩
  · have h2 : Getenv (d E) k ≠ "" := by rw [hd.getenv_of_nonempty E k h]; exact h
    show mergeLoop M (d E) k = E k
    rw [mergeLoop_nonempty M (d E) k h2, hd.of_nonempty E k h]
  · exact mergeLoop_empty M hM (d E) k v hkv h hacc
  · exact mergeLoop_nonempty M (d E) k h

theorem Load_merge_keeps_nonempty_sets_empty_witness :
    KeepsSetVars (dotenvLoad [("TEST_2", "local")]) ∧
      (Load (dotenvLoad [("TEST_2", "local")]) testFetch testUnmarshal true
        (envOf [("ENVKEY", VALID_ENVKEY), ("TEST", "mine")])).panicValue = none ∧
      ∀ k v, (k, v) ∈ testMapping →
        (Getenv (envOf [("ENVKEY", VALID_ENVKEY), ("TEST", "mine")]) k ≠ "" →
          (Load (dotenvLoad [("TEST_2", "local")]) testFetch testUnmarshal true
            (envOf [("ENVKEY", VALID_ENVKEY), ("TEST", "mine")])).env k =
            envOf [("ENVKEY", VALID_ENVKEY), ("TEST", "mine")] k) ∧
        (Getenv (envOf [("ENVKEY", VALID_ENVKEY), ("TEST", "mine")]) k = "" →
          Getenv (dotenvLoad [("TEST_2", "local")]
            (envOf [("ENVKEY", VALID_ENVKEY), ("TEST", "mine")])) k = "" →
          setenvAccepts k v = true →
          (Load (dotenvLoad [("TEST_2", "local")]) testFetch testUnmarshal true
            (envOf [("ENVKEY", VALID_ENVKEY), ("TEST", "mine")])).env k = some v) ∧
        (Getenv (envOf [("ENVKEY", VALID_ENVKEY), ("TEST", "mine")]) k = "" →
          Getenv (dotenvLoad [("TEST_2", "local")]
            (envOf [("ENVKEY", VALID_ENVKEY), ("TEST", "mine")])) k ≠ "" →
          (Load (dotenvLoad [("TEST_2", "local")]) testFetch testUnmarshal true
            (envOf [("ENVKEY", VALID_ENVKEY), ("TEST", "mine")])).env k =
            dotenvLoad [("TEST_2", "local")]
              (envOf [("ENVKEY", VALID_ENVKEY), ("TEST", "mine")]) k) :=
  ⟨dotenvLoad_keepsSetVars _,
    Load_merge_keeps_nonempty_sets_empty (dotenvLoad [("TEST_2", "local")])
      (dotenvLoad_keepsSetVars _) testFetch testUnmarshal true
      (envOf [("ENVKEY", VALID_ENVKEY), ("TEST", "mine")]) testResponse testMapping
      (by decide) (by decide) (by decide) (by decide)⟩

/-- C7, as stated, fails when `.env` supplies the token: with an empty process
environment and a `.env` file holding `ENVKEY`, the variable is absent when `Load`
is called, yet `Load` does not panic, calls `Fetch` once and sets the variables of
the fetched mapping. -/
theorem Load_token_from_dotenv :
    Clearenv "ENVKEY" = none ∧
      (Load (dotenvLoad [("ENVKEY", VALID_ENVKEY)]) testFetch testUnmarshal false
        Clearenv).panicValue = none ∧
      (Load (dotenvLoad [("ENVKEY", VALID_ENVKEY)]) testFetch testUnmarshal false
        Clearenv).fetchCalls.length = 1 ∧
      (Load (dotenvLoad [("ENVKEY", VALID_ENVKEY)]) testFetch testUnmarshal false
        Clearenv).env "TEST" = some "it" := by
  decide

/-- C7, amended: if `ENVKEY` is absent or empty once `godotenv.Load()` has run (neither
the process environment nor `.env` gives it a non-empty value), `Load` panics with
the error `missing ENVKEY`, for either value of `shouldCache`, before calling
`Fetch`: no `Fetch` call is made and the environment is the one `godotenv.Load()`
left, so no variable of any mapping is set. -/
theorem Load_missing_token_panics_before_fetch {ε : Type} (d : Env → Env)
    (Fetch : String → FetchOptions → String × Option ε)
    (jsonUnmarshal : String → List (String × String) × Option ε)
    (shouldCache : Bool) (E : Env) (h : Getenv (d E) "ENVKEY" = "") :
    (Load d Fetch jsonUnmarshal shouldCache E).panicValue =
        some (GoError.errorsNew "missing ENVKEY") ∧
      (Load d Fetch jsonUnmarshal shouldCache E).fetchCalls = [] ∧
      (Load d Fetch jsonUnmarshal shouldCache E).env = d E := by
  rw [Load_of_missing d Fetch jsonUnmarshal shouldCache E h]
  exact ⟨rfl, rfl, rfl⟩

theorem Load_missing_token_panics_before_fetch_witness :
    Getenv (dotenvLoad [("TEST", "local")] (envOf [("ENVKEY", "")])) "ENVKEY" = "" ∧
      (Load (dotenvLoad [("TEST", "local")]) testFetch testUnmarshal true
        (envOf [("ENVKEY", "")])).panicValue = some (GoError.errorsNew "missing ENVKEY") ∧
      (Load (dotenvLoad [("TEST", "local")]) testFetch testUnmarshal true
        (envOf [("ENVKEY", "")])).fetchCalls = [] ∧
      (Load (dotenvLoad [("TEST", "local")]) testFetch testUnmarshal true
        (envOf [("ENVKEY", "")])).env =
        dotenvLoad [("TEST", "local")] (envOf [("ENVKEY", "")]) :=
  ⟨by decide,
    Load_missing_token_panics_before_fetch (dotenvLoad [("TEST", "local")]) testFetch
      testUnmarshal true (envOf [("ENVKEY", "")]) (by decide)⟩

/-- C8: if `ENVKEY` is non-empty when `Load` is called (and `godotenv.Load()` keeps
variables that are already set) and `Fetch` returns the error `e`, then `Load` panics
with `e` itself, after exactly one `Fetch` call with that token, and the merge is
never reached: the environment at the panic is the one `Fetch` was called in. -/
theorem Load_fetch_error_panics_with_it {ε : Type} (d : Env → Env) (hd : KeepsSetVars d)
    (Fetch : String → FetchOptions → String × Option ε)
    (jsonUnmarshal : String → List (String × String) × Option ε)
    (shouldCache : Bool) (E : Env) (res : String) (e : ε)
    (hkey : Getenv E "ENVKEY" ≠ "")
    (hF : Fetch (Getenv E "ENVKEY") (loadOptions shouldCache) = (res, some e)) :
    (Load d Fetch jsonUnmarshal shouldCache E).panicValue = some (GoError.external e) ∧
      (Load d Fetch jsonUnmarshal shouldCache E).fetchCalls =
        [(Getenv E "ENVKEY", loadOptions shouldCache)] ∧
      (Load d Fetch jsonUnmarshal shouldCache E).env = d E := by
  have hk : Getenv (d E) "ENVKEY" = Getenv E "ENVKEY" :=
    hd.getenv_of_nonempty E "ENVKEY" hkey
  rw [Load_of_fetch_error d Fetch jsonUnmarshal shouldCache E res e (by rw [hk]; exact hkey)
    (by rw [hk]; exact hF), hk]
  exact ⟨rfl, rfl, rfl⟩

theorem Load_fetch_error_panics_with_it_witness :
    KeepsSetVars (dotenvLoad [("TEST", "local")]) ∧
      Getenv (envOf [("ENVKEY", INVALID_ENVKEY)]) "ENVKEY" ≠ "" ∧
      testFetch (Getenv (envOf [("ENVKEY", INVALID_ENVKEY)]) "ENVKEY") (loadOptions false) =
        ("", some "ENVKEY invalid") ∧
      (Load (dotenvLoad [("TEST", "local")]) testFetch testUnmarshal false
        (envOf [("ENVKEY", INVALID_ENVKEY)])).panicValue =
        some (GoError.external "ENVKEY invalid") ∧
      (Load (dotenvLoad [("TEST", "local")]) testFetch testUnmarshal false
        (envOf [("ENVKEY", INVALID_ENVKEY)])).fetchCalls =
        [(Getenv (envOf [("ENVKEY", INVALID_ENVKEY)]) "ENVKEY", loadOptions false)] ∧
      (Load (dotenvLoad [("TEST", "local")]) testFetch testUnmarshal false
        (envOf [("ENVKEY", INVALID_ENVKEY)])).env =
        dotenvLoad [("TEST", "local")] (envOf [("ENVKEY", INVALID_ENVKEY)]) :=
  ⟨dotenvLoad_keepsSetVars _, by decide, by decide,
    Load_fetch_error_panics_with_it (dotenvLoad [("TEST", "local")])
      (dotenvLoad_keepsSetVars _) testFetch testUnmarshal false
      (envOf [("ENVKEY", INVALID_ENVKEY)]) "" "ENVKEY invalid" (by decide) (by decide)⟩

/-- C9, as stated, fails on texts that are not a JSON object of strings and that
`json.Unmarshal` accepts without error: on the text `null` the map stays nil and
`Load` returns without a panic; on an object with a `null` member and a string
member `Load` returns as well and sets both names.  It also fails in its last part
when a `.env` file is present: with `.env` holding `FOO=bar` and a response with a
numeric value, `Load` panics with the parsing error, yet `FOO`, unset when `Load` was
called, is set at the panic. -/
theorem Load_null_response_is_no_parse_error :
    testUnmarshal "null" = ([], none) ∧
      (Load (dotenvLoad []) (fetchText "null") testUnmarshal false
        (envOf [("ENVKEY", VALID_ENVKEY)])).panicValue = none ∧
      testUnmarshal nullMemberResponse = ([("A", ""), ("B", "b")], none) ∧
      (Load (dotenvLoad []) (fetchText nullMemberResponse) testUnmarshal false
        (envOf [("ENVKEY", VALID_ENVKEY)])).panicValue = none ∧
      (Load (dotenvLoad []) (fetchText nullMemberResponse) testUnmarshal false
        (envOf [("ENVKEY", VALID_ENVKEY)])).env "A" = some "" ∧
      (Load (dotenvLoad []) (fetchText nullMemberResponse) testUnmarshal false
        (envOf [("ENVKEY", VALID_ENVKEY)])).env "B" = some "b" ∧
      (Load (dotenvLoad [("FOO", "bar")]) testFetch testUnmarshal false
        (envOf [("ENVKEY", "mixed")])).panicValue =
        some (GoError.errorsNew "problem parsing EnvKey's response") ∧
      envOf [("ENVKEY", "mixed")] "FOO" = none ∧
      (Load (dotenvLoad [("FOO", "bar")]) testFetch testUnmarshal false
        (envOf [("ENVKEY", "mixed")])).env "FOO" = some "bar" := by
  decide

/-- C9, amended: if `ENVKEY` is non-empty when `Load` is called (and `godotenv.Load()`
keeps variables that are already set), `Fetch` succeeds and `json.Unmarshal` reports
an error on the text, whatever entries it had already decoded into the map, then
`Load` panics with the error `problem parsing EnvKey's response`, which is neither
the `missing ENVKEY` error nor any error value coming from `Fetch`, and the merge is
never reached: the environment is the one `godotenv.Load()` left, so no decoded
entry is written. -/
theorem Load_parse_error_panics_and_sets_nothing {ε : Type} (d : Env → Env)
    (hd : KeepsSetVars d) (Fetch : String → FetchOptions → String × Option ε)
    (jsonUnmarshal : String → List (String × String) × Option ε)
    (shouldCache : Bool) (E : Env) (res : String) (decoded : List (String × String))
    (perr : ε) (hkey : Getenv E "ENVKEY" ≠ "")
    (hF : Fetch (Getenv E "ENVKEY") (loadOptions shouldCache) = (res, none))
    (hJ : jsonUnmarshal res = (decoded, some perr)) :
    (Load d Fetch jsonUnmarshal shouldCache E).panicValue =
        some (GoError.errorsNew "problem parsing EnvKey's response") ∧
      (Load d Fetch jsonUnmarshal shouldCache E).panicValue ≠
        some (GoError.errorsNew "missing ENVKEY") ∧
      (∀ e : ε, (Load d Fetch jsonUnmarshal shouldCache E).panicValue ≠
        some (GoError.external e)) ∧
      (Load d Fetch jsonUnmarshal shouldCache E).env = d E ∧
      ∀ kv ∈ decoded, (Load d Fetch jsonUnmarshal shouldCache E).env kv.1 = d E kv.1 := by
  have hk : Getenv (d E) "ENVKEY" = Getenv E "ENVKEY" :=
    hd.getenv_of_nonempty E "ENVKEY" hkey
  rw [Load_of_parse_error d Fetch jsonUnmarshal shouldCache E res decoded perr
    (by rw [hk]; exact hkey) (by rw [hk]; exact hF) hJ]
  refine ⟨rfl, ?_, ?_, rfl, fun _ _ => rfl⟩
  · simp
  · intro e
    simp

theorem Load_parse_error_panics_and_sets_nothing_witness :
    KeepsSetVars (dotenvLoad [("FOO", "bar")]) ∧
      Getenv (envOf [("ENVKEY", "mixed")]) "ENVKEY" ≠ "" ∧
      testFetch (Getenv (envOf [("ENVKEY", "mixed")]) "ENVKEY") (loadOptions false) =
        (mixedResponse, none) ∧
      testUnmarshal mixedResponse =
        ([("TEST", "it"), ("TEST_2", "")],
          some "json: cannot unmarshal number into Go value of type string") ∧
      ((Load (dotenvLoad [("FOO", "bar")]) testFetch testUnmarshal false
          (envOf [("ENVKEY", "mixed")])).panicValue =
          some (GoError.errorsNew "problem parsing EnvKey's response") ∧
        (Load (dotenvLoad [("FOO", "bar")]) testFetch testUnmarshal false
          (envOf [("ENVKEY", "mixed")])).panicValue ≠
          some (GoError.errorsNew "missing ENVKEY") ∧
        (∀ e : String, (Load (dotenvLoad [("FOO", "bar")]) testFetch testUnmarshal false
          (envOf [("ENVKEY", "mixed")])).panicValue ≠ some (GoError.external e)) ∧
        (Load (dotenvLoad [("FOO", "bar")]) testFetch testUnmarshal false
          (envOf [("ENVKEY", "mixed")])).env =
          dotenvLoad [("FOO", "bar")] (envOf [("ENVKEY", "mixed")]) ∧
        ∀ kv ∈ [("TEST", "it"), ("TEST_2", "")],
          (Load (dotenvLoad [("FOO", "bar")]) testFetch testUnmarshal false
            (envOf [("ENVKEY", "mixed")])).env kv.1 =
            dotenvLoad [("FOO", "bar")] (envOf [("ENVKEY", "mixed")]) kv.1) ∧
      (Load (dotenvLoad [("FOO", "bar")]) testFetch testUnmarshal false
        (envOf [("ENVKEY", "mixed")])).env "TEST" = none :=
  ⟨dotenvLoad_keepsSetVars _, by decide, by decide, by decide,
    Load_parse_error_panics_and_sets_nothing (dotenvLoad [("FOO", "bar")])
      (dotenvLoad_keepsSetVars _) testFetch testUnmarshal false
      (envOf [("ENVKEY", "mixed")]) mixedResponse [("TEST", "it"), ("TEST_2", "")]
      "json: cannot unmarshal number into Go value of type string"
      (by decide) (by decide) (by decide),
    by decide⟩

/-- C10, as stated, fails in its pointwise formula for a pair that `os.Setenv`
refuses: the mapping holds the name `A=B`, and in a second case a value containing
NUL; the variable is unset before the loop and is still unset after it, not set to
the value of the mapping. -/
theorem mergeLoop_refused_pair_stays_unset :
    ("A=B", "v") ∈ [("A=B", "v")] ∧
      Getenv Clearenv "A=B" = "" ∧
      mergeLoop [("A=B", "v")] Clearenv "A=B" = none ∧
      mergeLoop [("A=B", "v")] Clearenv "A=B" ≠ some "v" ∧
      ("K", "a\x00b") ∈ [("K", "a\x00b")] ∧
      Getenv Clearenv "K" = "" ∧
      mergeLoop [("K", "a\x00b")] Clearenv "K" = none ∧
      mergeLoop [("K", "a\x00b")] Clearenv "K" ≠ some "a\x00b" := by
  decide

/-- C10, amended: the merge loop does not depend on the order in which the entries
of the mapping are visited.  For every environment `E`, every mapping `M` (distinct
keys) and every enumeration `l` of its entries, the loop along `l` ends in the same
environment as along `M`, with: a name with a non-empty value in `E` keeps it; a key
of `M` that is unset or empty in `E` gets `M[k]` when `os.Setenv` accepts the name
with that value; a name that is not a key of `M` keeps what it had.  Running the
loop a second time changes nothing. -/
theorem mergeLoop_order_independent (E : Env) (M : List (String × String))
    (hM : (M.map Prod.fst).Nodup) (l : List (String × String)) (hl : l.Perm M) :
    mergeLoop l E = mergeLoop M E ∧
      (∀ k, Getenv E k ≠ "" → mergeLoop l E k = E k) ∧
      (∀ k v, (k, v) ∈ M → Getenv E k = "" → setenvAccepts k v = true →
        mergeLoop l E k = some v) ∧
      (∀ k, k ∉ M.map Prod.fst → mergeLoop l E k = E k) ∧
      mergeLoop l (mergeLoop l E) = mergeLoop l E := by
  have hnd : (l.map Prod.fst).Nodup := ((hl.map Prod.fst).nodup_iff).2 hM
  refine ⟨mergeLoop_perm l M hl hM E, fun k h => mergeLoop_nonempty l E k h,
    fun k v hkv h hacc => mergeLoop_empty l hnd E k v (hl.mem_iff.2 hkv) h hacc,
    fun k hk => mergeLoop_not_key l E k (fun h => hk ((hl.map Prod.fst).mem_iff.1 h)),
    mergeLoop_idem l hnd E⟩

theorem mergeLoop_order_independent_witness :
    ([("B", "2"), ("A", "1"), ("C", "")].map Prod.fst).Nodup ∧
      [("A", "1"), ("C", ""), ("B", "2")].Perm [("B", "2"), ("A", "1"), ("C", "")] ∧
      (mergeLoop [("A", "1"), ("C", ""), ("B", "2")] (envOf [("A", "kept"), ("B", "")]) =
        mergeLoop [("B", "2"), ("A", "1"), ("C", "")] (envOf [("A", "kept"), ("B", "")]) ∧
      (∀ k, Getenv (envOf [("A", "kept"), ("B", "")]) k ≠ "" →
        mergeLoop [("A", "1"), ("C", ""), ("B", "2")] (envOf [("A", "kept"), ("B", "")]) k =
          envOf [("A", "kept"), ("B", "")] k) ∧
      (∀ k v, (k, v) ∈ [("B", "2"), ("A", "1"), ("C", "")] →
        Getenv (envOf [("A", "kept"), ("B", "")]) k = "" → setenvAccepts k v = true →
        mergeLoop [("A", "1"), ("C", ""), ("B", "2")] (envOf [("A", "kept"), ("B", "")]) k =
          some v) ∧
      (∀ k, k ∉ [("B", "2"), ("A", "1"), ("C", "")].map Prod.fst →
        mergeLoop [("A", "1"), ("C", ""), ("B", "2")] (envOf [("A", "kept"), ("B", "")]) k =
          envOf [("A", "kept"), ("B", "")] k) ∧
      mergeLoop [("A", "1"), ("C", ""), ("B", "2")]
          (mergeLoop [("A", "1"), ("C", ""), ("B", "2")] (envOf [("A", "kept"), ("B", "")])) =
        mergeLoop [("A", "1"), ("C", ""), ("B", "2")] (envOf [("A", "kept"), ("B", "")])) :=
  ⟨by decide, by decide,
    mergeLoop_order_independent (envOf [("A", "kept"), ("B", "")])
      [("B", "2"), ("A", "1"), ("C", "")] (by decide)
      [("A", "1"), ("C", ""), ("B", "2")] (by decide)⟩

/-! ## Strings -/

theorem intercalate_go_append (x acc s : String) (l : List String) :
    String.intercalate.go (x ++ acc) s l = x ++ String.intercalate.go acc s l := by
  induction l generalizing acc with
  | nil => rfl
  | cons a l ih =>
    simp only [String.intercalate.go]
    rw [String.append_assoc, String.append_assoc, ih, String.append_assoc]

theorem intercalate_singleton (s a : String) : String.intercalate s [a] = a := rfl

theorem intercalate_cons_cons (s a b : String) (l : List String) :
    String.intercalate s (a :: b :: l) = a ++ s ++ String.intercalate s (b :: l) := by
  show String.intercalate.go a s (b :: l) = a ++ s ++ String.intercalate.go b s l
  simp only [String.intercalate.go]
  rw [intercalate_go_append]

/-- A non-empty list of pieces that all end in `c`, joined by a separator, ends in `c`. -/
theorem intercalate_getLast (s : String) (c : Char) (l : List String) (hl : l ≠ [])
    (h : ∀ t ∈ l, t.data.getLast? = some c) :
    (String.intercalate s l).data.getLast? = some c := by
  induction l with
  | nil => exact absurd rfl hl
  | cons a l ih =>
    cases l with
    | nil => exact h a (List.mem_cons_self _ _)
    | cons b l =>
      have ih' := ih (List.cons_ne_nil _ _) (fun t ht => h t (List.mem_cons_of_mem _ ht))
      rw [intercalate_cons_cons, String.data_append]
      have hne : (String.intercalate s (b :: l)).data ≠ [] := by
        intro h0
        rw [h0] at ih'
        simp at ih'
      rw [List.getLast?_append_of_ne_nil _ hne]
      exact ih'

/-- Every piece occurs in the joined string. -/
theorem intercalate_infix (s : String) (l : List String) (t : String) (ht : t ∈ l) :
    t.data <:+: (String.intercalate s l).data := by
  induction l with
  | nil => simp at ht
  | cons a l ih =>
    cases l with
    | nil =>
      simp only [List.mem_singleton] at ht
      subst ht
      exact List.infix_refl _
    | cons b l =>
      rw [intercalate_cons_cons, String.data_append, String.data_append]
      rcases List.mem_cons.1 ht with heq | hmem
      · subst heq
        exact (List.prefix_append _ _).isInfix.trans (List.prefix_append _ _).isInfix
      · exact (ih hmem).trans (List.suffix_append _ _).isInfix

theorem join_cons (a : String) (l : List String) :
    String.join (a :: l) = a ++ String.join l := by
  apply String.ext
  simp [String.data_join]

/-- A non-empty list of pieces that all end in `c`, concatenated, ends in `c`. -/
theorem join_getLast (c : Char) (l : List String) (hl : l ≠ [])
    (h : ∀ t ∈ l, t.data.getLast? = some c) : (String.join l).data.getLast? = some c := by
  induction l with
  | nil => exact absurd rfl hl
  | cons a l ih =>
    cases l with
    | nil =>
      have := h a (List.mem_cons_self _ _)
      simpa [join_cons, String.join] using this
    | cons b l =>
      have ih' := ih (List.cons_ne_nil _ _) (fun t ht => h t (List.mem_cons_of_mem _ ht))
      rw [join_cons, String.data_append]
      have hne : (String.join (b :: l)).data ≠ [] := by
        intro h0
        rw [h0] at ih'
        simp at ih'
      rw [List.getLast?_append_of_ne_nil _ hne]
      exact ih'

theorem getLast_append_quote (u : String) : (u ++ "'").data.getLast? = some '\'' := by
  rw [String.data_append]
  exact List.getLast?_concat _

theorem getLast_append_newline (u : String) : (u ++ "\n").data.getLast? = some '\n' := by
  rw [String.data_append]
  exact List.getLast?_concat _

/-! ## Sorting the keys and indexing the map -/

theorem keyLE_iff (a b : String) : keyLE a b ↔ a ≤ b :=
  String.le_iff_toList_le.symm

/-- The sort returns the one strictly ascending arrangement of the keys. -/
theorem sortStrings_eq_of_sorted (keys ks : List String) (hperm : ks.Perm keys)
    (hsorted : ks.Sorted (· < ·)) : sortStrings keys = ks := by
  have h1 : (sortStrings keys).Sorted keyLE := List.sorted_insertionSort keyLE keys
  have h2 : ks.Sorted keyLE :=
    List.Pairwise.imp (fun {a b} hab => (keyLE_iff a b).2 (le_of_lt hab)) hsorted
  exact List.eq_of_perm_of_sorted ((List.perm_insertionSort keyLE keys).trans hperm.symm) h1 h2

theorem sortStrings_perm (keys : List String) : (sortStrings keys).Perm keys :=
  List.perm_insertionSort keyLE keys

/-- The sort of duplicate-free keys is strictly ascending. -/
theorem sortStrings_sorted_lt (keys : List String) (hnd : keys.Nodup) :
    (sortStrings keys).Sorted (· < ·) := by
  have h1 : (sortStrings keys).Sorted keyLE := List.sorted_insertionSort keyLE keys
  have h2 : (sortStrings keys).Nodup := ((sortStrings_perm keys).nodup_iff).2 hnd
  have h3 : (sortStrings keys).Pairwise (fun a b => keyLE a b ∧ a ≠ b) :=
    List.Pairwise.and h1 h2
  exact List.Pairwise.imp
    (fun {a b} hab => lt_of_le_of_ne ((keyLE_iff a b).1 hab.1) hab.2) h3

theorem sortStrings_congr (keys₁ keys₂ : List String) (h : keys₁.Perm keys₂) :
    sortStrings keys₁ = sortStrings keys₂ :=
  List.eq_of_perm_of_sorted
    (((List.perm_insertionSort keyLE keys₁).trans h).trans
      (List.perm_insertionSort keyLE keys₂).symm)
    (List.sorted_insertionSort keyLE keys₁) (List.sorted_insertionSort keyLE keys₂)

/-- With distinct keys, indexing an enumeration by a key gives the value paired
with it. -/
theorem valueOf_of_mem (m : List (String × String)) (hm : (m.map Prod.fst).Nodup)
    (k v : String) (h : (k, v) ∈ m) : valueOf m k = v := by
  induction m with
  | nil => simp at h
  | cons kv m ih =>
    obtain ⟨k', v'⟩ := kv
    simp only [List.map_cons, List.nodup_cons] at hm
    rcases List.mem_cons.1 h with heq | hmem
    · cases heq
      simp [valueOf]
    · have hne : k ≠ k' := by
        intro hk
        apply hm.1
        rw [← hk]
        exact List.mem_map_of_mem Prod.fst hmem
      simp [valueOf, hne, ih hm.2 hmem]

/-- The rendered pieces depend on the mapping only through the value stored under
each key. -/
theorem map_valueOf_congr (m : List (String × String)) (hm : (m.map Prod.fst).Nodup)
    (val : String → String) (hval : ∀ k v, (k, v) ∈ m → val k = v)
    (f : String → String → String) (ks : List String) (hks : ∀ k ∈ ks, k ∈ m.map Prod.fst) :
    ks.map (fun k => f k (valueOf m k)) = ks.map (fun k => f k (val k)) := by
  apply List.map_congr_left
  intro k hk
  obtain ⟨v, hv⟩ := exists_value_of_key m k (hks k hk)
  rw [valueOf_of_mem m hm k v hv, hval k v hv]

/-- Two enumerations of one mapping render to the same text. -/
theorem render_perm (m₁ m₂ : List (String × String)) (hperm : m₁.Perm m₂)
    (hm : (m₂.map Prod.fst).Nodup) (pam dotEnv : Bool) :
    render m₁ pam dotEnv = render m₂ pam dotEnv := by
  have hm₁ : (m₁.map Prod.fst).Nodup := ((hperm.map Prod.fst).nodup_iff).2 hm
  have hkeys : sortStrings (m₁.map Prod.fst) = sortStrings (m₂.map Prod.fst) :=
    sortStrings_congr _ _ (hperm.map Prod.fst)
  have hmem : ∀ k ∈ sortStrings (m₂.map Prod.fst), k ∈ m₁.map Prod.fst := fun k hk =>
    (hperm.map Prod.fst).mem_iff.2 ((sortStrings_perm _).mem_iff.1 hk)
  have hval : ∀ k v, (k, v) ∈ m₁ → valueOf m₂ k = v := fun k v hkv =>
    valueOf_of_mem m₂ hm k v (hperm.mem_iff.1 hkv)
  unfold render
  simp only [hkeys]
  rw [map_valueOf_congr m₁ hm₁ (valueOf m₂) hval dotEnvLine _ hmem,
    map_valueOf_congr m₁ hm₁ (valueOf m₂) hval pamLine _ hmem,
    map_valueOf_congr m₁ hm₁ (valueOf m₂) hval standardToken _ hmem]

theorem standardToken_eq (k v : String) :
    standardToken k v = "'" ++ k ++ "'='" ++ ESCAPE v ++ "'" := by
  apply String.ext
  simp [standardToken, String.data_append]

theorem pamLine_eq (k v : String) : pamLine k v = "export " ++ k ++ "='" ++ v ++ "'" := by
  apply String.ext
  simp [pamLine, RAW_QUOTE, String.data_append]

theorem dotEnvLine_eq (k v : String) : dotEnvLine k v = k ++ "='" ++ ESCAPE v ++ "'\n" := by
  apply String.ext
  simp [dotEnvLine, String.data_append]

/-! ## The exits of `Source` -/

theorem Source_of_fetch_error {ε : Type} (Fetch : String → FetchOptions → String × Option ε)
    (jsonUnmarshal : String → List (String × String) × Option ε) (envkey : String)
    (extraFlag : Bool) (options : FetchOptions) (pam dotEnv : Bool) (res : String) (e : ε)
    (hF : Fetch envkey options = (res, some e)) :
    Source Fetch jsonUnmarshal envkey extraFlag options pam dotEnv = errorSnippet := by
  simp [Source, hF]

theorem Source_of_success {ε : Type} (Fetch : String → FetchOptions → String × Option ε)
    (jsonUnmarshal : String → List (String × String) × Option ε) (envkey : String)
    (extraFlag : Bool) (options : FetchOptions) (pam dotEnv : Bool) (res : String)
    (M : List (String × String)) (hF : Fetch envkey options = (res, none))
    (hJ : jsonUnmarshal res = (M, none)) :
    Source Fetch jsonUnmarshal envkey extraFlag options pam dotEnv = render M pam dotEnv := by
  simp [Source, hF, hJ]

/-- The rendering of a mapping, stated with any strictly ascending arrangement `ks`
of its keys and any function `val` giving the value of each key. -/
theorem render_eq (M : List (String × String)) (hM : (M.map Prod.fst).Nodup)
    (val : String → String) (hval : ∀ k v, (k, v) ∈ M → val k = v) (ks : List String)
    (hperm : ks.Perm (M.map Prod.fst)) (hsorted : ks.Sorted (· < ·)) (pam dotEnv : Bool) :
    render M pam dotEnv =
      if dotEnv then String.join (ks.map fun k => k ++ "='" ++ ESCAPE (val k) ++ "'\n")
      else if pam then "\n".intercalate (ks.map fun k => "export " ++ k ++ "='" ++ val k ++ "'")
      else "export " ++
        " ".intercalate (ks.map fun k => "'" ++ k ++ "'='" ++ ESCAPE (val k) ++ "'") := by
  have hks : ∀ k ∈ ks, k ∈ M.map Prod.fst := fun k hk => hperm.mem_iff.1 hk
  unfold render
  simp only [sortStrings_eq_of_sorted _ ks hperm hsorted]
  rw [map_valueOf_congr M hM val hval dotEnvLine ks hks,
    map_valueOf_congr M hM val hval pamLine ks hks,
    map_valueOf_congr M hM val hval standardToken ks hks]
  simp only [standardToken_eq, pamLine_eq, dotEnvLine_eq]

/-- The standard and the PAM rendering never end in a newline. -/
theorem render_not_dotEnv_getLast (M : List (String × String)) (pam : Bool) :
    (render M pam false).data.getLast? ≠ some '\n' := by
  unfold render
  cases hks : sortStrings (M.map Prod.fst) with
  | nil =>
    cases pam <;> simp only [List.map_nil, Bool.false_eq_true, if_false, if_true] <;> decide
  | cons k ks =>
    have hq : ∀ (f : String → String), (∀ k, (f k).data.getLast? = some '\'') →
        ∀ s : String, (s.intercalate ((k :: ks).map f)).data.getLast? = some '\'' :=
      fun f hf s => intercalate_getLast s '\'' _ (List.cons_ne_nil _ _) (fun t ht => by
        obtain ⟨k', _, rfl⟩ := List.mem_map.1 ht
        exact hf k')
    cases pam
    · have h := hq (fun k => standardToken k (valueOf M k))
        (fun k => by simp only [standardToken]; exact getLast_append_quote _) " "
      have hne : (" ".intercalate ((k :: ks).map fun k => standardToken k (valueOf M k))).data
          ≠ [] := by
        intro h0
        rw [h0] at h
        simp at h
      simp only [Bool.false_eq_true, if_false, String.data_append]
      rw [List.getLast?_append_of_ne_nil _ hne, h]
      decide
    · have h := hq (fun k => pamLine k (valueOf M k))
        (fun k => by
          simp only [pamLine, RAW_QUOTE, ← String.append_assoc]
          exact getLast_append_quote _) "\n"
      simp only [Bool.false_eq_true, if_false, if_true]
      rw [h]
      decide

/-- The dot-env rendering of a non-empty mapping ends in a newline. -/
theorem render_dotEnv_getLast (M : List (String × String)) (hne : M ≠ []) (pam : Bool) :
    (render M pam true).data.getLast? = some '\n' := by
  unfold render
  simp only [if_true]
  apply join_getLast
  · intro h
    have hlen := (sortStrings_perm (M.map Prod.fst)).length_eq
    rw [List.map_eq_nil_iff] at h
    rw [h] at hlen
    cases M with
    | nil => exact hne rfl
    | cons a l => simp at hlen
  · intro t ht
    obtain ⟨k, _, rfl⟩ := List.mem_map.1 ht
    simp only [dotEnvLine]
    exact getLast_append_newline _

/-! ## The test of `shell_test.go` on the test doubles -/

theorem TestSource_valid (version : String) :
    Source testFetch testUnmarshal VALID_ENVKEY true (testOptions version) false false =
      "export 'TEST'='it' 'TEST_2'='works!' 'TEST_INJECTION'=''\"'\"'$(uname)' 'TEST_SINGLE_QUOTES'='this'\"'\"' is ok' 'TEST_SPACES'='it does work!' 'TEST_STRANGE_CHARS'='with quotes \x60 '\"'\"' \\\" bäh'" := by
  rfl

theorem TestSource_pam (version : String) :
    Source testFetch testUnmarshal VALID_ENVKEY true (testOptions version) true false =
      "export TEST='it'\nexport TEST_2='works!'\nexport TEST_INJECTION=''$(uname)'\nexport TEST_SINGLE_QUOTES='this' is ok'\nexport TEST_SPACES='it does work!'\nexport TEST_STRANGE_CHARS='with quotes \x60 ' \\\" bäh'" := by
  rfl

theorem TestSource_dotEnv (version : String) :
    Source testFetch testUnmarshal VALID_ENVKEY true (testOptions version) false true =
      "TEST='it'\nTEST_2='works!'\nTEST_INJECTION=''\"'\"'$(uname)'\nTEST_SINGLE_QUOTES='this'\"'\"' is ok'\nTEST_SPACES='it does work!'\nTEST_STRANGE_CHARS='with quotes \x60 '\"'\"' \\\" bäh'\n" := by
  rfl

theorem TestSource_invalid (version : String) :
    Source testFetch testUnmarshal INVALID_ENVKEY true (testOptions version) false false =
      "echo 'error: ENVKEY invalid'; false" := by
  rfl

/-- The examples of section 8 of the specification. -/
theorem ESCAPE_example : ESCAPE "this' is ok" = "this'\"'\"' is ok" := by
  decide

theorem render_example :
    render [("TEST_2", "works!"), ("TEST", "it")] false false =
        "export 'TEST'='it' 'TEST_2'='works!'" ∧
      render [("TEST_2", "works!"), ("TEST", "it")] false true =
        "TEST='it'\nTEST_2='works!'\n" := by
  decide

theorem testSortedKeys_sorted : testSortedKeys.Sorted (· < ·) :=
  (by decide : sortStrings (testMapping.map Prod.fst) = testSortedKeys) ▸
    sortStrings_sorted_lt (testMapping.map Prod.fst) (by decide)

/-! ## The quoted word of `ESCAPE` read back -/

/-- Inside single quotes, the reader consumes the escaped form of `cs` and yields
`cs` in front of what the rest yields. -/
theorem shellWord_single_escape (cs rest : List Char) :
    shellWord QuoteMode.single (cs.flatMap escapeChar ++ rest) =
      (shellWord QuoteMode.single rest).map (cs ++ ·) := by
  induction cs with
  | nil => simp
  | cons c cs ih =>
    by_cases hc : c = '\''
    · subst hc
      have h : shellWord QuoteMode.single
          (('\'' :: cs).flatMap escapeChar ++ rest) =
          (shellWord QuoteMode.single (cs.flatMap escapeChar ++ rest)).map ('\'' :: ·) := by
        simp [escapeChar, shellWord, doubleSpecial, List.flatMap_def]
      rw [h, ih, Option.map_map]
      rfl
    · have h : shellWord QuoteMode.single ((c :: cs).flatMap escapeChar ++ rest) =
          (shellWord QuoteMode.single (cs.flatMap escapeChar ++ rest)).map (c :: ·) := by
        simp [escapeChar, shellWord, hc, List.flatMap_def]
      rw [h, ih, Option.map_map]
      rfl

/-! ## Claims about `shell.Source` -/

/-- C2: for every token, options value, second argument and combination of
`pamCompatible` and `dotEnvCompatible`, if `Fetch` fails (whatever the error) then
`Source` returns exactly `echo 'error: ENVKEY invalid'; false`. -/
theorem Source_fetch_failure_text {ε : Type}
    (Fetch : String → FetchOptions → String × Option ε)
    (jsonUnmarshal : String → List (String × String) × Option ε) (token : String)
    (extraFlag : Bool) (options : FetchOptions) (pamCompatible dotEnvCompatible : Bool)
    (res : String) (e : ε) (hF : Fetch token options = (res, some e)) :
    Source Fetch jsonUnmarshal token extraFlag options pamCompatible dotEnvCompatible =
      "echo 'error: ENVKEY invalid'; false" :=
  Source_of_fetch_error Fetch jsonUnmarshal token extraFlag options pamCompatible
    dotEnvCompatible res e hF

theorem Source_fetch_failure_text_witness :
    testFetch INVALID_ENVKEY (testOptions "1.0") = ("", some "ENVKEY invalid") ∧
      Source testFetch testUnmarshal INVALID_ENVKEY true (testOptions "1.0") true true =
        "echo 'error: ENVKEY invalid'; false" :=
  ⟨by decide,
    Source_fetch_failure_text testFetch testUnmarshal INVALID_ENVKEY true (testOptions "1.0")
      true true "" "ENVKEY invalid" (by decide)⟩

/-- C3: for every fetched mapping `M` (distinct keys, `val k` the value of key `k`),
`Source` with both format flags off returns `export ` followed by the tokens
`'k'='ESCAPE(val k)'` for the keys in strictly ascending order `ks`, joined by
single spaces; the text does not end in a newline; and any other enumeration `M'`
of the same mapping gives the same text. -/
theorem Source_standard_format {ε : Type}
    (Fetch : String → FetchOptions → String × Option ε)
    (jsonUnmarshal : String → List (String × String) × Option ε) (token : String)
    (extraFlag : Bool) (options : FetchOptions) (res : String) (M : List (String × String))
    (hF : Fetch token options = (res, none)) (hJ : jsonUnmarshal res = (M, none))
    (hM : (M.map Prod.fst).Nodup) (val : String → String)
    (hval : ∀ k v, (k, v) ∈ M → val k = v) (ks : List String)
    (hperm : ks.Perm (M.map Prod.fst)) (hsorted : ks.Sorted (· < ·)) :
    Source Fetch jsonUnmarshal token extraFlag options false false =
        "export " ++
          " ".intercalate (ks.map fun k => "'" ++ k ++ "'='" ++ ESCAPE (val k) ++ "'") ∧
      (Source Fetch jsonUnmarshal token extraFlag options false false).data.getLast? ≠
        some '\n' ∧
      ∀ (jsonUnmarshal' : String → List (String × String) × Option ε)
        (M' : List (String × String)), jsonUnmarshal' res = (M', none) → M'.Perm M →
        Source Fetch jsonUnmarshal' token extraFlag options false false =
          Source Fetch jsonUnmarshal token extraFlag options false false := by
  rw [Source_of_success Fetch jsonUnmarshal token extraFlag options false false res M hF hJ]
  refine ⟨?_, render_not_dotEnv_getLast M false, fun J' M' hJ' hM' => ?_⟩
  · rw [render_eq M hM val hval ks hperm hsorted false false]
    simp
  · rw [Source_of_success Fetch J' token extraFlag options false false res M' hF hJ']
    exact render_perm M' M hM' hM false false

theorem Source_standard_format_witness :
    testFetch VALID_ENVKEY (testOptions "1.0") = (testResponse, none) ∧
      testUnmarshal testResponse = (testMapping, none) ∧
      (testMapping.map Prod.fst).Nodup ∧
      testSortedKeys.Perm (testMapping.map Prod.fst) ∧
      testSortedKeys.Sorted (· < ·) ∧
      (Source testFetch testUnmarshal VALID_ENVKEY true (testOptions "1.0") false false =
          "export " ++ " ".intercalate (testSortedKeys.map fun k =>
            "'" ++ k ++ "'='" ++ ESCAPE (valueOf testMapping k) ++ "'") ∧
        (Source testFetch testUnmarshal VALID_ENVKEY true (testOptions "1.0")
          false false).data.getLast? ≠ some '\n' ∧
        ∀ (jsonUnmarshal' : String → List (String × String) × Option String)
          (M' : List (String × String)), jsonUnmarshal' testResponse = (M', none) →
          M'.Perm testMapping →
          Source testFetch jsonUnmarshal' VALID_ENVKEY true (testOptions "1.0") false false =
            Source testFetch testUnmarshal VALID_ENVKEY true (testOptions "1.0")
              false false) :=
  ⟨by decide, by decide, by decide, by decide, testSortedKeys_sorted,
    Source_standard_format testFetch testUnmarshal VALID_ENVKEY true (testOptions "1.0")
      testResponse testMapping (by decide) (by decide) (by decide) (valueOf testMapping)
      (valueOf_of_mem testMapping (by decide)) testSortedKeys (by decide)
      testSortedKeys_sorted⟩

/-- C4: for every value `v`, the text made of a single quote, `ESCAPE(v)` and a single
quote is read as one shell word whose content is exactly `v`; `ESCAPE` replaces each
single quote of `v` by the five characters `'"'"'` and keeps every other character. -/
theorem ESCAPE_roundtrip (v : String) :
    shellWord QuoteMode.unquoted ("'" ++ ESCAPE v ++ "'").data = some v.data ∧
      (ESCAPE v).data =
        v.data.flatMap (fun c => if c = '\'' then "'\"'\"'".data else [c]) := by
  constructor
  · have h : ("'" ++ ESCAPE v ++ "'").data =
        '\'' :: (v.data.flatMap escapeChar ++ ['\'']) := by
      simp [String.data_append, ESCAPE]
    rw [h]
    have h2 : shellWord QuoteMode.unquoted ('\'' :: (v.data.flatMap escapeChar ++ ['\''])) =
        shellWord QuoteMode.single (v.data.flatMap escapeChar ++ ['\'']) := by
      simp [shellWord]
    rw [h2, shellWord_single_escape]
    simp [shellWord]
  · rfl

/-- The reader on the quoted words of `TestSource`: the escaped form reads back as
the value, the raw PAM form of a value holding a quote is not one word. -/
theorem shellWord_examples :
    shellWord QuoteMode.unquoted "''\"'\"'$(uname)'".data = some "'$(uname)".data ∧
      shellWord QuoteMode.unquoted "'this'\"'\"' is ok'".data = some "this' is ok".data ∧
      shellWord QuoteMode.unquoted "'this' is ok'".data = none := by
  decide

/-- C5: for every fetched mapping `M` (distinct keys, `val k` the value of key `k`),
`Source` with `dotEnvCompatible` set returns, whatever `pamCompatible` is, the
concatenation over the keys in strictly ascending order `ks` of the lines
`k='ESCAPE(val k)'`, each followed by a newline, with no `export` in front; for a
non-empty `M` the text ends in a newline, while the standard and the PAM text for
the same `M` do not. -/
theorem Source_dotEnv_format {ε : Type}
    (Fetch : String → FetchOptions → String × Option ε)
    (jsonUnmarshal : String → List (String × String) × Option ε) (token : String)
    (extraFlag : Bool) (options : FetchOptions) (pamCompatible : Bool) (res : String)
    (M : List (String × String))
    (hF : Fetch token options = (res, none)) (hJ : jsonUnmarshal res = (M, none))
    (hM : (M.map Prod.fst).Nodup) (val : String → String)
    (hval : ∀ k v, (k, v) ∈ M → val k = v) (ks : List String)
    (hperm : ks.Perm (M.map Prod.fst)) (hsorted : ks.Sorted (· < ·)) :
    Source Fetch jsonUnmarshal token extraFlag options pamCompatible true =
        String.join (ks.map fun k => k ++ "='" ++ ESCAPE (val k) ++ "'\n") ∧
      (M ≠ [] →
        (Source Fetch jsonUnmarshal token extraFlag options pamCompatible true).data.getLast?
          = some '\n') ∧
      (Source Fetch jsonUnmarshal token extraFlag options false false).data.getLast? ≠
        some '\n' ∧
      (Source Fetch jsonUnmarshal token extraFlag options true false).data.getLast? ≠
        some '\n' := by
  rw [Source_of_success Fetch jsonUnmarshal token extraFlag options pamCompatible true res M
      hF hJ,
    Source_of_success Fetch jsonUnmarshal token extraFlag options false false res M hF hJ,
    Source_of_success Fetch jsonUnmarshal token extraFlag options true false res M hF hJ]
  refine ⟨?_, fun hne => render_dotEnv_getLast M hne pamCompatible,
    render_not_dotEnv_getLast M false, render_not_dotEnv_getLast M true⟩
  rw [render_eq M hM val hval ks hperm hsorted pamCompatible true]
  simp

theorem Source_dotEnv_format_witness :
    testFetch VALID_ENVKEY (testOptions "1.0") = (testResponse, none) ∧
      testUnmarshal testResponse = (testMapping, none) ∧
      (testMapping.map Prod.fst).Nodup ∧
      testSortedKeys.Perm (testMapping.map Prod.fst) ∧
      testMapping ≠ [] ∧
      (Source testFetch testUnmarshal VALID_ENVKEY true (testOptions "1.0") true true =
          String.join (testSortedKeys.map fun k =>
            k ++ "='" ++ ESCAPE (valueOf testMapping k) ++ "'\n") ∧
        (testMapping ≠ [] →
          (Source testFetch testUnmarshal VALID_ENVKEY true (testOptions "1.0")
            true true).data.getLast? = some '\n') ∧
        (Source testFetch testUnmarshal VALID_ENVKEY true (testOptions "1.0")
          false false).data.getLast? ≠ some '\n' ∧
        (Source testFetch testUnmarshal VALID_ENVKEY true (testOptions "1.0")
          true false).data.getLast? ≠ some '\n') :=
  ⟨by decide, by decide, by decide, by decide, by decide,
    Source_dotEnv_format testFetch testUnmarshal VALID_ENVKEY true (testOptions "1.0") true
      testResponse testMapping (by decide) (by decide) (by decide) (valueOf testMapping)
      (valueOf_of_mem testMapping (by decide)) testSortedKeys (by decide)
      testSortedKeys_sorted⟩

/-- C6: for every fetched mapping `M` (distinct keys, `val k` the value of key `k`),
`Source` with `pamCompatible` set and `dotEnvCompatible` off returns the lines
`export k='val k'` for the keys in strictly ascending order `ks`, joined by newlines,
with no newline at the end; each value stands between its two quotes as it is, so
every line `export k='v'` with its unescaped value `v`, and hence `v` itself, occurs
in the text. -/
theorem Source_pam_format {ε : Type}
    (Fetch : String → FetchOptions → String × Option ε)
    (jsonUnmarshal : String → List (String × String) × Option ε) (token : String)
    (extraFlag : Bool) (options : FetchOptions) (res : String) (M : List (String × String))
    (hF : Fetch token options = (res, none)) (hJ : jsonUnmarshal res = (M, none))
    (hM : (M.map Prod.fst).Nodup) (val : String → String)
    (hval : ∀ k v, (k, v) ∈ M → val k = v) (ks : List String)
    (hperm : ks.Perm (M.map Prod.fst)) (hsorted : ks.Sorted (· < ·)) :
    Source Fetch jsonUnmarshal token extraFlag options true false =
        "\n".intercalate (ks.map fun k => "export " ++ k ++ "='" ++ val k ++ "'") ∧
      (Source Fetch jsonUnmarshal token extraFlag options true false).data.getLast? ≠
        some '\n' ∧
      ∀ k v, (k, v) ∈ M →
        ("export " ++ k ++ "='" ++ v ++ "'").data <:+:
          (Source Fetch jsonUnmarshal token extraFlag options true false).data ∧
        v.data <:+: (Source Fetch jsonUnmarshal token extraFlag options true false).data := by
  rw [Source_of_success Fetch jsonUnmarshal token extraFlag options true false res M hF hJ]
  have hr : render M true false =
      "\n".intercalate (ks.map fun k => "export " ++ k ++ "='" ++ val k ++ "'") := by
    rw [render_eq M hM val hval ks hperm hsorted true false]
    simp
  refine ⟨hr, render_not_dotEnv_getLast M true, fun k v hkv => ?_⟩
  have hk : k ∈ ks := hperm.mem_iff.2 (List.mem_map_of_mem Prod.fst hkv)
  have hline : ("export " ++ k ++ "='" ++ v ++ "'") ∈
      ks.map (fun k => "export " ++ k ++ "='" ++ val k ++ "'") := by
    refine List.mem_map.2 ⟨k, hk, ?_⟩
    simp only [hval k v hkv]
  have hinf : ("export " ++ k ++ "='" ++ v ++ "'").data <:+: (render M true false).data := by
    rw [hr]
    exact intercalate_infix "\n" _ _ hline
  refine ⟨hinf, List.IsInfix.trans ?_ hinf⟩
  simp only [String.data_append]
  exact (List.suffix_append _ _).isInfix.trans (List.prefix_append _ _).isInfix

theorem Source_pam_format_witness :
    testFetch VALID_ENVKEY (testOptions "1.0") = (testResponse, none) ∧
      testUnmarshal testResponse = (testMapping, none) ∧
      (testMapping.map Prod.fst).Nodup ∧
      testSortedKeys.Perm (testMapping.map Prod.fst) ∧
      (Source testFetch testUnmarshal VALID_ENVKEY true (testOptions "1.0") true false =
          "\n".intercalate (testSortedKeys.map fun k =>
            "export " ++ k ++ "='" ++ valueOf testMapping k ++ "'") ∧
        (Source testFetch testUnmarshal VALID_ENVKEY true (testOptions "1.0")
          true false).data.getLast? ≠ some '\n' ∧
        ∀ k v, (k, v) ∈ testMapping →
          ("export " ++ k ++ "='" ++ v ++ "'").data <:+:
            (Source testFetch testUnmarshal VALID_ENVKEY true (testOptions "1.0")
              true false).data ∧
          v.data <:+: (Source testFetch testUnmarshal VALID_ENVKEY true (testOptions "1.0")
            true false).data) :=
  ⟨by decide, by decide, by decide, by decide,
    Source_pam_format testFetch testUnmarshal VALID_ENVKEY true (testOptions "1.0")
      testResponse testMapping (by decide) (by decide) (by decide) (valueOf testMapping)
      (valueOf_of_mem testMapping (by decide)) testSortedKeys (by decide)
      testSortedKeys_sorted⟩

end EnvKey
